import Mathlib

/-!
Verification of the DPhyp join-order optimizer (`dphyp.rs`).

The Rust source `src/query/sql/src/planner/optimizer/hyper_dp/dphyp.rs` is
embedded shallowly below.  Collaborator modules that are not part of the
sources at hand (`join_node.rs`, `join_relation.rs`, `query_graph.rs`,
`util.rs`, the `SExpr` plan-tree type, the metadata catalog, the
cardinality estimator and the predicate-pushdown rule) are modelled from
the specification; each such definition carries a doc comment starting
with `Modelled from the spec:`.

Machine reals (`f64` costs and cardinalities) are modelled by `ℚ`;
fallible code and `unreachable!`/index panics are modelled by
`Except String`; recursion whose termination depends on runtime data is
given an explicit fuel parameter (running out of fuel is an `error`,
never a silent default).
-/

namespace Dphyp

/-- Join types relevant to the optimizer (`JoinType` in `plans`):
`inner` and `cross` are the equi-invertible ones; `leftOuter` stands for
any non-inner, non-cross join type. -/
inductive JoinType where
  | inner
  | cross
  | leftOuter
deriving DecidableEq, Repr

/-- Modelled from the spec: a scalar expression (`ScalarExpr`).  The only
observations the optimizer makes are structural equality and
`used_tables` (the metadata collaborator resolving which relations an
expression references), so an expression is modelled as a name together
with the list of table indices it references. -/
structure Expr where
  name : Nat
  tables : List Nat
deriving DecidableEq, Repr

/-- The `Filter` operator payload (`plans::Filter`). -/
structure Filter where
  predicates : List Expr
  is_having : Bool
deriving DecidableEq, Repr

/-- The `Join` operator payload (`plans::Join`), restricted to the fields
read by `dphyp.rs`. -/
structure JoinOp where
  join_type : JoinType
  left_conditions : List Expr
  right_conditions : List Expr
  non_equi_conditions : List Expr
deriving DecidableEq, Repr

/-- The relational operators distinguished by `get_base_relations`
(`RelOperator`).  Operators whose payload is never read are modelled as
bare constructors. -/
inductive RelOp where
  | scan (table_index : Nat)
  | join (op : JoinOp)
  | filter (op : Filter)
  | eval_scalar
  | aggregate
  | sort
  | limit
  | project_set
  | window
  | union_all
  | exchange
  | pattern
  | runtime_filter_source
  | dummy_table_scan
  | cte_scan
  | materialized_cte
deriving DecidableEq, Repr

/-- Modelled from the spec: the immutable plan tree `SExpr` (plan node,
children, and the applied-rule marker used by `apply_rule`). -/
inductive SExpr where
  | mk (plan : RelOp) (children : List SExpr) (applied : Bool)

def SExpr.plan : SExpr → RelOp
  | .mk p _ _ => p

def SExpr.children : SExpr → List SExpr
  | .mk _ c _ => c

def SExpr.applied : SExpr → Bool
  | .mk _ _ a => a

/-- `SExpr::replace_children` (keeps plan and applied-rule state). -/
def SExpr.withChildren : SExpr → List SExpr → SExpr
  | .mk p _ a, c => .mk p c a

def SExpr.withPlan : SExpr → RelOp → SExpr
  | .mk _ c a, p => .mk p c a

def SExpr.withApplied : SExpr → Bool → SExpr
  | .mk p c _, a => .mk p c a

/-- `SExpr::is_pattern`. -/
def SExpr.is_pattern (s : SExpr) : Bool :=
  match s.plan with
  | .pattern => true
  | _ => false

/-! ## Relation Set Canonicalizer (`join_relation.rs` / `util.rs`) -/

/-- Modelled from the spec: `RelationSetTree::get_relation_set` maps an
arbitrary collection of relation indices to its canonical ordered
identifier ("sort + dedupe"); the interning table of the real
implementation is a performance device and is not modelled. -/
def canon (l : List Nat) : List Nat := (l.insertionSort (· ≤ ·)).dedup

/-- Modelled from the spec: `util::union` of two canonical relation sets. -/
def runion (a b : List Nat) : List Nat := canon (a ++ b)

/-- Modelled from the spec: `util::intersect` reports whether two relation
sets share an element. -/
def rintersect (a b : List Nat) : Bool := a.any (fun x => b.contains x)

/-- Modelled from the spec: `RelationSetTree::get_relation_set_by_index`
returns the canonical singleton identifier of one relation. -/
def relSetOfIndex (i : Nat) : List Nat := [i]

/-! ## Query Graph (`query_graph.rs`) -/

/-- Modelled from the spec: the query hypergraph is a list of edges, each
associating an ordered pair of relation subsets (canonical identifiers)
with the accumulated join conditions connecting them. -/
structure QueryGraph where
  edges : List ((List Nat × List Nat) × List (Expr × Expr))

def QueryGraph.empty : QueryGraph := ⟨[]⟩

/-- Helper of `create_edges`: append the condition to the entry of the
key, or add a fresh entry at the end. -/
def addEdgeCond (l r : List Nat) (c : Expr × Expr) :
    List ((List Nat × List Nat) × List (Expr × Expr)) →
    List ((List Nat × List Nat) × List (Expr × Expr))
  | [] => [((l, r), [c])]
  | (k, cs) :: rest =>
    if k = (l, r) then (k, cs ++ [c]) :: rest
    else (k, cs) :: addEdgeCond l r c rest

/-- Modelled from the spec: `QueryGraph::create_edges` inserts a condition
under the key `(left, right)`; conditions for an existing key accumulate.
(The mirrored direction is inserted by a second call in `optimize`.) -/
def QueryGraph.create_edges (g : QueryGraph) (l r : List Nat)
    (c : Expr × Expr) : QueryGraph :=
  ⟨addEdgeCond l r c g.edges⟩

/-- Modelled from the spec: `QueryGraph::neighbors nodes forbidden`
returns, in ascending canonical order, the relation indices directly
connected to `nodes` by an edge whose source side lies inside `nodes`,
excluding indices of `nodes` itself and of `forbidden`. -/
def QueryGraph.neighbors (g : QueryGraph) (nodes forbidden : List Nat) :
    List Nat :=
  canon (g.edges.foldr
    (fun e acc =>
      if e.1.1.all (fun x => nodes.contains x) then
        e.1.2.filter (fun x => !nodes.contains x && !forbidden.contains x)
          ++ acc
      else acc)
    [])

/-- Modelled from the spec: `QueryGraph::is_connected a b` returns the
full list of join conditions on edges joining a subset of `a` to a subset
of `b` (empty list when there is no such edge). -/
def QueryGraph.is_connected (g : QueryGraph) (a b : List Nat) :
    List (Expr × Expr) :=
  g.edges.foldr
    (fun e acc =>
      if e.1.1.all (fun x => a.contains x) &&
          e.1.2.all (fun x => b.contains x) then
        e.2 ++ acc
      else acc)
    []

/-! ## Join relations and DP-table values (`join_relation.rs`, `join_node.rs`) -/

/-- Modelled from the spec: a `JoinRelation` is one atom to be joined,
carrying the plan subtree registered for it (its estimated row count is
supplied by the external estimator, see `Collab.relCard`). -/
structure JoinRelation where
  sexpr : SExpr

/-- The DP-table value `JoinNode`: leaf-relation subset covered, child
plans, join kind and conditions, accumulated cost, memoized cardinality,
and the (always `none` inside `dphyp.rs`) cached plan. `f64` is modelled
by `ℚ`. -/
inductive JoinNode where
  | mk (join_type : JoinType) (leaves : List Nat) (children : List JoinNode)
      (join_conditions : List (Expr × Expr)) (cost : ℚ)
      (cardinality : Option ℚ) (sexpr : Option SExpr)

def JoinNode.join_type : JoinNode → JoinType
  | .mk t _ _ _ _ _ _ => t

def JoinNode.leaves : JoinNode → List Nat
  | .mk _ l _ _ _ _ _ => l

def JoinNode.children : JoinNode → List JoinNode
  | .mk _ _ c _ _ _ _ => c

def JoinNode.join_conditions : JoinNode → List (Expr × Expr)
  | .mk _ _ _ j _ _ _ => j

def JoinNode.cost : JoinNode → ℚ
  | .mk _ _ _ _ c _ _ => c

def JoinNode.cardinality : JoinNode → Option ℚ
  | .mk _ _ _ _ _ c _ => c

/-- `JoinNode::set_cost`. -/
def JoinNode.set_cost : JoinNode → ℚ → JoinNode
  | .mk t l ch j _ ca s, c => .mk t l ch j c ca s

def JoinNode.set_cardinality : JoinNode → Option ℚ → JoinNode
  | .mk t l ch j c _ s, ca => .mk t l ch j c ca s

/-- Modelled from the spec: the external collaborators of the optimizer —
the per-relation cardinality estimator, the join cardinality estimator
(driven by the covered relation subset and the join conditions), and the
predicate-pushdown rewrite rule (`none` when the rule produces no
rewrite). -/
structure Collab where
  relCard : SExpr → ℚ
  joinCard : List Nat → List (Expr × Expr) → ℚ
  rule : SExpr → Option SExpr

/-- Modelled from the spec: `JoinNode::cardinality` — the memoized, lazily
computed estimated cardinality; on a cache miss the external estimator is
consulted and the result memoized.  Returns the value together with the
updated node. -/
def JoinNode.getCardM (C : Collab) (n : JoinNode) : ℚ × JoinNode :=
  match n.cardinality with
  | some c => (c, n)
  | none =>
    let c := C.joinCard n.leaves n.join_conditions
    (c, n.set_cardinality (some c))

/-- The value computed by `JoinNode::cardinality`, without the memo
update. -/
def JoinNode.getCard (C : Collab) (n : JoinNode) : ℚ :=
  (n.getCardM C).1

/-- Modelled from the spec: `JoinNode::s_expr` materializes a plan tree
from a DP entry — a leaf becomes the stored subtree of its relation, an
internal node becomes a binary join with the recorded kind and
conditions. -/
def JoinNode.to_s_expr (rels : List JoinRelation) :
    Nat → JoinNode → Except String SExpr
  | 0, _ => .error "out of fuel"
  | fuel + 1, n =>
    match n.children with
    | [] =>
      match rels[n.leaves.headD 0]? with
      | some jr => .ok jr.sexpr
      | none => .error "leaf relation index out of range"
    | [a, b] => do
      let ea ← JoinNode.to_s_expr rels fuel a
      let eb ← JoinNode.to_s_expr rels fuel b
      .ok (SExpr.mk
        (.join ⟨n.join_type, n.join_conditions.map Prod.fst,
          n.join_conditions.map Prod.snd, []⟩)
        [ea, eb] false)
    | _ => .error "malformed join node"

/-! ## Association lists (model of `HashMap`) and the optimizer state -/

/-- `HashMap` lookup. -/
def alookup {α β : Type} [DecidableEq α] (k : α) : List (α × β) → Option β
  | [] => none
  | (k', v) :: rest => if k' = k then some v else alookup k rest

/-- `HashMap::insert` (replaces the value of an existing key). -/
def ainsert {α β : Type} [DecidableEq α] (k : α) (v : β) :
    List (α × β) → List (α × β)
  | [] => [(k, v)]
  | (k', v') :: rest =>
    if k' = k then (k, v) :: rest else (k', v') :: ainsert k v rest

/-- The mutable fields of `DPhpy`: the extracted relations, the base-table
to relation index map, the DP table, the query graph, and the residual
filter set (`HashSet<Filter>` modelled as an insertion-ordered duplicate
free list). -/
structure DState where
  join_relations : List JoinRelation
  table_index_map : List (Nat × Nat)
  dp_table : List (List Nat × JoinNode)
  query_graph : QueryGraph
  filters : List Filter

/-- `DPhpy::new`. -/
def DState.empty : DState := ⟨[], [], [], QueryGraph.empty, []⟩

/-- `HashSet::insert` on the filter set. -/
def DState.insertFilter (st : DState) (f : Filter) : DState :=
  if st.filters.contains f then st
  else { st with filters := st.filters ++ [f] }

/-! ## `emit_csg_cmp` (dphyp.rs lines 458-519) -/

/-- The candidate parent `JoinNode` constructed by `emit_csg_cmp` from the
DP entries `lj` (for `left`) and `rj` (for `right`): build/probe
orientation chosen by comparing the children's estimated cardinalities
(conditions swapped, and the clones placed as `[right, left]`, exactly
when the left cardinality is strictly smaller), an inner join when the
condition list is non-empty (cost = own cardinality + children's costs),
a cross join otherwise (cost = product of the children's
cardinalities). -/
def csgCmpCandidate (C : Collab) (left right : List Nat) (lj rj : JoinNode)
    (conds : List (Expr × Expr)) : JoinNode :=
  let parent_set := runion left right
  let pl := lj.getCardM C
  let pr := rj.getCardM C
  let left_cardinality := pl.1
  let right_cardinality := pr.1
  let conds' :=
    if left_cardinality < right_cardinality then
      conds.map (fun c => (c.2, c.1))
    else conds
  let ch :=
    if left_cardinality < right_cardinality then (pr.2, pl.2)
    else (pl.2, pr.2)
  if !conds'.isEmpty then
    let node : JoinNode :=
      .mk .inner parent_set [ch.1, ch.2] conds' 0 none none
    let pc := node.getCardM C
    (pc.2).set_cost (pc.1 + ch.1.cost + ch.2.cost)
  else
    .mk .cross parent_set [ch.1, ch.2] []
      (left_cardinality * right_cardinality) none none

/-- `DPhpy::emit_csg_cmp`: build the candidate node for `left ∪ right` and
overwrite the DP entry when there is none yet or the existing entry's
cost is strictly greater. -/
def emit_csg_cmp (C : Collab) (st : DState) (left right : List Nat)
    (conds : List (Expr × Expr)) : Except String (Bool × DState) :=
  match alookup left st.dp_table, alookup right st.dp_table with
  | some lj, some rj =>
    let parent_set := runion left right
    let cand := csgCmpCandidate C left right lj rj conds
    match alookup parent_set st.dp_table with
    | none =>
      .ok (true, { st with dp_table := ainsert parent_set cand st.dp_table })
    | some old =>
      if old.cost > cand.cost then
        .ok (true, { st with dp_table := ainsert parent_set cand st.dp_table })
      else .ok (true, st)
  | _, _ => .error "dp table entry missing"

/-! ## The csg-cmp enumeration (dphyp.rs lines 377-559) -/

def RELATION_THRESHOLD : Nat := 10

mutual

/-- `DPhpy::emit_csg`. -/
def emit_csg (C : Collab) : Nat → DState → List Nat →
    Except String (Bool × DState)
  | 0, _, _ => .error "out of fuel"
  | fuel + 1, st, nodes =>
    if nodes.length = st.join_relations.length then .ok (true, st)
    else
      match nodes with
      | [] => .error "index out of bounds"
      | n0 :: _ =>
        let forbidden := List.range n0 ++ nodes
        let nbs := st.query_graph.neighbors nodes forbidden
        if nbs.isEmpty then .ok (true, st)
        else emitCsgNeighborLoop C fuel st nodes forbidden nbs.reverse

/-- The `for neighbor in neighbors.iter().rev()` loop of `emit_csg`. -/
def emitCsgNeighborLoop (C : Collab) : Nat → DState → List Nat →
    List Nat → List Nat → Except String (Bool × DState)
  | 0, _, _, _, _ => .error "out of fuel"
  | fuel + 1, st, nodes, forbidden, nbs =>
    match nbs with
    | [] => .ok (true, st)
    | nb :: rest =>
      let nbRel := relSetOfIndex nb
      let conds := st.query_graph.is_connected nodes nbRel
      match (if conds.isEmpty then Except.ok (true, st)
             else emit_csg_cmp C st nodes nbRel conds) with
      | .error e => .error e
      | .ok (b1, st1) =>
        if !b1 then .ok (false, st1)
        else
          match enumerate_cmp_rec C fuel st1 nodes nbRel forbidden with
          | .error e => .error e
          | .ok (b2, st2) =>
            if !b2 then .ok (false, st2)
            else emitCsgNeighborLoop C fuel st2 nodes forbidden rest

/-- `DPhpy::enumerate_csg_rec` (the neighbor truncation above the
relation threshold happens here). -/
def enumerate_csg_rec (C : Collab) : Nat → DState → List Nat →
    List Nat → Except String (Bool × DState)
  | 0, _, _, _ => .error "out of fuel"
  | fuel + 1, st, nodes, forbidden =>
    let nbs := st.query_graph.neighbors nodes forbidden
    if nbs.isEmpty then .ok (true, st)
    else
      csgRecBody C fuel st nodes forbidden
        (if st.join_relations.length ≥ RELATION_THRESHOLD then
          nbs.take nodes.length
        else nbs)

/-- Body of `enumerate_csg_rec` after the neighbor list has been fixed:
the `emit_csg` loop over merged sets followed by the recursion loop. -/
def csgRecBody (C : Collab) : Nat → DState → List Nat → List Nat →
    List Nat → Except String (Bool × DState)
  | 0, _, _, _, _ => .error "out of fuel"
  | fuel + 1, st, nodes, forbidden, nbs =>
    match csgEmitLoop C fuel st nodes nbs with
    | .error e => .error e
    | .ok (b, st1, merged) =>
      if !b then .ok (false, st1)
      else csgRecurseLoop C fuel st1 (nbs.zip merged) forbidden forbidden

/-- First loop of `enumerate_csg_rec`: emit each known, strictly larger
merged set and collect `merged_sets`. -/
def csgEmitLoop (C : Collab) : Nat → DState → List Nat → List Nat →
    Except String (Bool × DState × List (List Nat))
  | 0, _, _, _ => .error "out of fuel"
  | fuel + 1, st, nodes, nbs =>
    match nbs with
    | [] => .ok (true, st, [])
    | nb :: rest =>
      let merged := runion nodes (relSetOfIndex nb)
      match (if (alookup merged st.dp_table).isSome &&
                merged.length > nodes.length then
               emit_csg C fuel st merged
             else Except.ok (true, st)) with
      | .error e => .error e
      | .ok (b, st1) =>
        if !b then .ok (false, st1, [])
        else
          match csgEmitLoop C fuel st1 nodes rest with
          | .error e => .error e
          | .ok (b', st2, ms) => .ok (b', st2, merged :: ms)

/-- Second loop of `enumerate_csg_rec`: recurse into each merged set with
the enlarged forbidden set (the forbidden set is reset each iteration
below the relation threshold and accumulates at or above it). -/
def csgRecurseLoop (C : Collab) : Nat → DState → List (Nat × List Nat) →
    List Nat → List Nat → Except String (Bool × DState)
  | 0, _, _, _, _ => .error "out of fuel"
  | fuel + 1, st, pairs, forbidOrig, forbidAcc =>
    match pairs with
    | [] => .ok (true, st)
    | (nb, merged) :: rest =>
      let base :=
        if st.join_relations.length < RELATION_THRESHOLD then forbidOrig
        else forbidAcc
      let newForbid := nb :: base
      match enumerate_csg_rec C fuel st merged newForbid with
      | .error e => .error e
      | .ok (b, st1) =>
        if !b then .ok (false, st1)
        else csgRecurseLoop C fuel st1 rest forbidOrig newForbid

/-- `DPhpy::enumerate_cmp_rec`. -/
def enumerate_cmp_rec (C : Collab) : Nat → DState → List Nat →
    List Nat → List Nat → Except String (Bool × DState)
  | 0, _, _, _, _ => .error "out of fuel"
  | fuel + 1, st, left, right, forbidden =>
    let nbs := st.query_graph.neighbors right forbidden
    if nbs.isEmpty then .ok (true, st)
    else
      match cmpEmitLoop C fuel st left right nbs with
      | .error e => .error e
      | .ok (b, st1, merged) =>
        if !b then .ok (false, st1)
        else cmpRecurseLoop C fuel st1 left (nbs.zip merged) forbidden

/-- First loop of `enumerate_cmp_rec`: emit each enlarged complement that
is strictly larger, known in the DP table and connected to `left`. -/
def cmpEmitLoop (C : Collab) : Nat → DState → List Nat → List Nat →
    List Nat → Except String (Bool × DState × List (List Nat))
  | 0, _, _, _, _ => .error "out of fuel"
  | fuel + 1, st, left, right, nbs =>
    match nbs with
    | [] => .ok (true, st, [])
    | nb :: rest =>
      let merged := runion right (relSetOfIndex nb)
      let conds := st.query_graph.is_connected left merged
      match (if merged.length > right.length &&
                (alookup merged st.dp_table).isSome &&
                !conds.isEmpty then
               emit_csg_cmp C st left merged conds
             else Except.ok (true, st)) with
      | .error e => .error e
      | .ok (b, st1) =>
        if !b then .ok (false, st1, [])
        else
          match cmpEmitLoop C fuel st1 left right rest with
          | .error e => .error e
          | .ok (b', st2, ms) => .ok (b', st2, merged :: ms)

/-- Second loop of `enumerate_cmp_rec`: recurse into each enlarged
complement with the accumulating forbidden set. -/
def cmpRecurseLoop (C : Collab) : Nat → DState → List Nat →
    List (Nat × List Nat) → List Nat → Except String (Bool × DState)
  | 0, _, _, _, _ => .error "out of fuel"
  | fuel + 1, st, left, pairs, forbidAcc =>
    match pairs with
    | [] => .ok (true, st)
    | (nb, merged) :: rest =>
      let newForbid := nb :: forbidAcc
      match enumerate_cmp_rec C fuel st left merged newForbid with
      | .error e => .error e
      | .ok (b, st1) =>
        if !b then .ok (false, st1)
        else cmpRecurseLoop C fuel st1 left rest newForbid

end

/-! ## `solve` (dphyp.rs lines 339-375) -/

/-- The DP-table initialization loop of `solve`: one leaf `JoinNode` per
relation, with cost `0` and the relation's estimated row count as
memoized cardinality. -/
def solveInitGo (C : Collab) : List JoinRelation → Nat →
    List (List Nat × JoinNode) → List (List Nat × JoinNode)
  | [], _, dp => dp
  | rel :: rest, idx, dp =>
    let nodes := relSetOfIndex idx
    let ce := C.relCard rel.sexpr
    let j : JoinNode := .mk .inner nodes [] [] 0 (some ce) none
    solveInitGo C rest (idx + 1) (ainsert nodes j dp)

/-- The initialization phase of `solve`. -/
def solveInit (C : Collab) (st : DState) : DState :=
  { st with dp_table := solveInitGo C st.join_relations 0 st.dp_table }

/-- The main loop of `solve`: every relation index, in descending order,
is taken once as enumeration start node. -/
def solveLoop (C : Collab) : Nat → List Nat → DState →
    Except String (Bool × DState)
  | 0, _, _ => .error "out of fuel"
  | fuel + 1, idxs, st =>
    match idxs with
    | [] => .ok (true, st)
    | idx :: rest =>
      match emit_csg C fuel st (relSetOfIndex idx) with
      | .error e => .error e
      | .ok (b1, st1) =>
        if !b1 then .ok (false, st1)
        else
          match enumerate_csg_rec C fuel st1 (relSetOfIndex idx)
              (List.range idx) with
          | .error e => .error e
          | .ok (b2, st2) =>
            if !b2 then .ok (false, st2)
            else solveLoop C fuel rest st2

/-- `DPhpy::solve`. -/
def solve (C : Collab) (fuel : Nat) (st : DState) :
    Except String (Bool × DState) :=
  solveLoop C fuel (List.range st.join_relations.length).reverse
    (solveInit C st)

/-! ## Predicate pushdown and plan reconstruction (dphyp.rs lines 561-650) -/

/-- Modelled from the spec: whether the `PushDownFilterJoin` rule's
pattern matches, i.e. the node is a filter directly over a join. -/
def matchesPDF (s : SExpr) : Bool :=
  match s.plan, s.children with
  | .filter _, c :: _ =>
    match c.plan with
    | .join _ => true
    | _ => false
  | _, _ => false

mutual

/-- `DPhpy::push_down_filter`: push the children first, then apply the
rule at this node. -/
def push_down_filter (C : Collab) : Nat → SExpr → Except String SExpr
  | 0, _ => .error "out of fuel"
  | fuel + 1, s =>
    match pdfChildren C fuel s.children with
    | .error e => .error e
    | .ok cs => apply_rule C fuel (s.withChildren cs)

/-- The children loop of `push_down_filter`. -/
def pdfChildren (C : Collab) : Nat → List SExpr → Except String (List SExpr)
  | 0, _ => .error "out of fuel"
  | fuel + 1, cs =>
    match cs with
    | [] => .ok []
    | c :: rest =>
      match push_down_filter C fuel c with
      | .error e => .error e
      | .ok c' =>
        match pdfChildren C fuel rest with
        | .error e => .error e
        | .ok rest' => .ok (c' :: rest')

/-- `DPhpy::apply_rule`: if the pushdown pattern matches and the rule has
not been applied at this node, mark it applied, run the external rule,
and recursively push the rewritten result. -/
def apply_rule (C : Collab) : Nat → SExpr → Except String SExpr
  | 0, _ => .error "out of fuel"
  | fuel + 1, s =>
    if matchesPDF s && !s.applied then
      let s' := s.withApplied true
      match C.rule s' with
      | some r => push_down_filter C fuel r
      | none => .ok s'
    else .ok s

end

/-- `DPhpy::replace_join_expr`: replace the first join node found walking
down the first children, wrap it in a filter carrying every residual
predicate, push filters down, and drop the top filter if its predicate
list became empty. -/
def replace_join_expr (C : Collab) (filters : List Filter) :
    Nat → SExpr → SExpr → Except String SExpr
  | 0, _, _ => .error "out of fuel"
  | fuel + 1, je, s =>
    match s.plan with
    | .join _ =>
      let replaced := (s.withPlan je.plan).withChildren je.children
      let preds := (filters.map Filter.predicates).flatten
      let wrapped := SExpr.mk (.filter ⟨preds, false⟩) [replaced] false
      match push_down_filter C fuel wrapped with
      | .error e => .error e
      | .ok pushed =>
        match pushed.plan with
        | .filter f =>
          if f.predicates.isEmpty then
            match pushed.children with
            | c :: _ => .ok c
            | [] => .error "child index"
          else .ok pushed
        | _ => .ok pushed
    | _ =>
      match s.children with
      | [] => .error "child index"
      | c :: _ =>
        match replace_join_expr C filters fuel je c with
        | .error e => .error e
        | .ok c' => .ok (s.withChildren [c'])

/-- `DPhpy::join_reorder`: materialize the winning DP entry and splice it
into the extracted plan. -/
def join_reorder (C : Collab) (fuel : Nat) (st : DState) (final : JoinNode)
    (e : SExpr) : Except String ((SExpr × Bool) × DState) :=
  match final.to_s_expr st.join_relations fuel with
  | .error er => .error er
  | .ok je =>
    match replace_join_expr C st.filters fuel je e with
    | .error er => .error er
    | .ok r => .ok ((r, true), st)

/-! ## Relation extraction (dphyp.rs lines 70-259) and `optimize` -/

mutual

/-- `DPhpy::check_filter`: remove from the filter set every filter that
occurs in the given subtree (it travels with the relation instead). -/
def check_filter : Nat → SExpr → List Filter → Except String (List Filter)
  | 0, _, _ => .error "out of fuel"
  | fuel + 1, e, fs =>
    let fs1 :=
      match e.plan with
      | .filter f => if fs.contains f then fs.erase f else fs
      | _ => fs
    checkFilterChildren fuel e.children fs1

/-- The children loop of `check_filter`. -/
def checkFilterChildren : Nat → List SExpr → List Filter →
    Except String (List Filter)
  | 0, _, _ => .error "out of fuel"
  | fuel + 1, cs, fs =>
    match cs with
    | [] => .ok fs
    | c :: rest =>
      match check_filter fuel c fs with
      | .error e => .error e
      | .ok fs' => checkFilterChildren fuel rest fs'

end

/-- Whether an operator forces its side of a join to be optimized as an
independent subquery (the "blocking" list of `get_base_relations`). -/
def isBlocking (p : RelOp) : Bool :=
  match p with
  | .eval_scalar | .aggregate | .sort | .limit | .project_set | .window =>
    true
  | _ => false

/-- Whether a join type is equi-invertible (inner or cross). -/
def isInnerJoinKind (t : JoinType) : Bool :=
  match t with
  | .inner => true
  | .cross => true
  | _ => false

/-- Resolve every table index of a condition side through
`table_index_map`; a missing entry is the index panic of
`self.table_index_map[table]`. -/
def tablesToRels (st : DState) : List Nat → Except String (List Nat)
  | [] => .ok []
  | t :: rest =>
    match alookup t st.table_index_map with
    | some v =>
      match tablesToRels st rest with
      | .ok vs => .ok (v :: vs)
      | .error e => .error e
    | none => .error "table index not mapped"

/-- The edge-building loop of `optimize` (lines 278-317): for each join
condition, resolve the relation sets of its two sides; abort with `false`
when one side contributes no relations; create the mirrored edges when
the two sides are disjoint. -/
def buildGraphLoop : List (Expr × Expr) → DState →
    Except String (Bool × DState)
  | [], st => .ok (true, st)
  | (lc, rc) :: rest, st =>
    match tablesToRels st lc.tables with
    | .error e => .error e
    | .ok lraw =>
      match tablesToRels st rc.tables with
      | .error e => .error e
      | .ok rraw =>
        if !lraw.isEmpty && !rraw.isEmpty then
          let lset := canon lraw
          let rset := canon rraw
          let g2 :=
            (st.query_graph.create_edges lset rset (lc, rc)).create_edges
              rset lset (rc, lc)
          let st' :=
            if !rintersect lset rset then { st with query_graph := g2 }
            else st
          buildGraphLoop rest st'
        else .ok (false, st)

mutual

/-- `DPhpy::get_base_relations`: traverse the plan, collect base
relations and join conditions, and rewrite subquery children.  The
`&mut Vec` condition accumulator is threaded explicitly. -/
def get_base_relations (C : Collab) : Nat → SExpr → List (Expr × Expr) →
    Bool → Option SExpr → Bool → DState →
    Except String ((SExpr × Bool) × List (Expr × Expr) × DState)
  | 0, _, _, _, _, _, _ => .error "out of fuel"
  | fuel + 1, s, conds, join_child, join_relation, is_subquery, st =>
    if s.is_pattern then .ok ((s, true), conds, st)
    else if is_subquery then
      match optimize C fuel s DState.empty with
      | .error e => .error e
      | .ok ((new_s, optimized), stSub) =>
        if optimized then
          let idx := st.join_relations.length
          let map' := stSub.table_index_map.foldl
            (fun m kv => ainsert kv.1 idx m) st.table_index_map
          .ok ((new_s, true), conds,
            { st with table_index_map := map',
                      join_relations := st.join_relations ++ [⟨new_s⟩] })
        else .ok ((new_s, false), conds, st)
    else
      match s.plan with
      | .scan tidx =>
        match join_relation with
        | some rel =>
          match check_filter fuel rel st.filters with
          | .error e => .error e
          | .ok fs' =>
            .ok ((s, true), conds,
              { st with filters := fs',
                        table_index_map :=
                          ainsert tidx st.join_relations.length
                            st.table_index_map,
                        join_relations := st.join_relations ++ [⟨rel⟩] })
        | none =>
          .ok ((s, true), conds,
            { st with table_index_map :=
                        ainsert tidx st.join_relations.length
                          st.table_index_map,
                      join_relations := st.join_relations ++ [⟨s⟩] })
      | .join op =>
        match s.children with
        | c0 :: c1 :: _ =>
          let is_inner_join := isInnerJoinKind op.join_type
          let left_is_subquery := isBlocking c0.plan
          let right_is_subquery := isBlocking c1.plan
          let conds1 := conds ++ op.left_conditions.zip op.right_conditions
          let st1 :=
            if !op.non_equi_conditions.isEmpty then
              st.insertFilter ⟨op.non_equi_conditions, false⟩
            else st
          if !is_inner_join || (left_is_subquery && right_is_subquery) then
            match new_children C fuel s st1 with
            | .error e => .error e
            | .ok ((new_s, optimized), st2) =>
              .ok ((new_s, optimized), conds1,
                { st2 with join_relations := st2.join_relations ++ [⟨new_s⟩] })
          else
            match get_base_relations C fuel c0 conds1 true none
                left_is_subquery st1 with
            | .error e => .error e
            | .ok ((le, lopt), conds2, st2) =>
              match get_base_relations C fuel c1 conds2 true none
                  right_is_subquery st2 with
              | .error e => .error e
              | .ok ((re, ropt), conds3, st3) =>
                .ok ((s.withChildren [le, re], lopt && ropt), conds3, st3)
        | _ => .error "child index"
      | .project_set => gbrUnary C fuel s conds join_child st
      | .aggregate => gbrUnary C fuel s conds join_child st
      | .sort => gbrUnary C fuel s conds join_child st
      | .limit => gbrUnary C fuel s conds join_child st
      | .eval_scalar => gbrUnary C fuel s conds join_child st
      | .window => gbrUnary C fuel s conds join_child st
      | .filter _ => gbrUnary C fuel s conds join_child st
      | .union_all =>
        match new_children C fuel s st with
        | .error e => .error e
        | .ok ((new_s, optimized), st2) =>
          .ok ((new_s, optimized), conds,
            { st2 with join_relations := st2.join_relations ++ [⟨new_s⟩] })
      | .exchange => .error "unreachable"
      | .pattern => .error "unreachable"
      | .runtime_filter_source => .error "unreachable"
      | .dummy_table_scan => .ok ((s, true), conds, st)
      | .cte_scan => .ok ((s, true), conds, st)
      | .materialized_cte => .ok ((s, true), conds, st)

/-- The unary-operator branch of `get_base_relations` (blocking operators
and filters, lines 214-246): as a direct join child the node is recorded
as owning ancestor (and a filter is saved into the filter set); otherwise
it is traversed transparently. -/
def gbrUnary (C : Collab) : Nat → SExpr → List (Expr × Expr) → Bool →
    DState → Except String ((SExpr × Bool) × List (Expr × Expr) × DState)
  | 0, _, _, _, _ => .error "out of fuel"
  | fuel + 1, s, conds, join_child, st =>
    if join_child then
      let st1 :=
        match s.plan with
        | .filter f => st.insertFilter f
        | _ => st
      match s.children with
      | [] => .error "child index"
      | c :: _ =>
        match get_base_relations C fuel c conds true (some s) false st1 with
        | .error e => .error e
        | .ok ((child, optimized), conds', st2) =>
          .ok ((s.withChildren [child], optimized), conds', st2)
    else
      match s.children with
      | [] => .error "child index"
      | c :: _ =>
        match get_base_relations C fuel c conds false none false st with
        | .error e => .error e
        | .ok ((child, optimized), conds', st2) =>
          .ok ((s.withChildren [child], optimized), conds', st2)

/-- `DPhpy::new_children`: optimize both children with fresh optimizer
instances, merge their table maps under one new relation index, and
report success regardless of the children's own flags. -/
def new_children (C : Collab) : Nat → SExpr → DState →
    Except String ((SExpr × Bool) × DState)
  | 0, _, _ => .error "out of fuel"
  | fuel + 1, s, st =>
    match s.children with
    | c0 :: c1 :: _ =>
      match optimize C fuel c0 DState.empty with
      | .error e => .error e
      | .ok ((le, _), stL) =>
        match optimize C fuel c1 DState.empty with
        | .error e => .error e
        | .ok ((re, _), stR) =>
          let idx := st.join_relations.length
          let m1 := stL.table_index_map.foldl
            (fun m kv => ainsert kv.1 idx m) st.table_index_map
          let m2 := stR.table_index_map.foldl
            (fun m kv => ainsert kv.1 idx m) m1
          .ok ((s.withChildren [le, re], true),
            { st with table_index_map := m2 })
    | _ => .error "child index"

/-- `DPhpy::optimize`: extraction, early exits, edge building, `solve`,
and reconstruction of the winning plan. -/
def optimize (C : Collab) : Nat → SExpr → DState →
    Except String ((SExpr × Bool) × DState)
  | 0, _, _ => .error "out of fuel"
  | fuel + 1, s, st =>
    match get_base_relations C fuel s [] false none false st with
    | .error e => .error e
    | .ok ((e, optimized), conds, st1) =>
      if !optimized then .ok ((e, false), st1)
      else if st1.join_relations.length = 1 || conds.isEmpty then
        .ok ((e, true), st1)
      else
        match buildGraphLoop conds st1 with
        | .error er => .error er
        | .ok (flag, st2) =>
          if !flag then .ok ((e, false), st2)
          else
            match solve C fuel st2 with
            | .error er => .error er
            | .ok (solved, st3) =>
              let allRel := canon (List.range st3.join_relations.length)
              if solved then
                match alookup allRel st3.dp_table with
                | some fp => join_reorder C fuel st3 fp e
                | none => .ok ((e, false), st3)
              else .ok ((e, false), st3)

end

/-! ## Spec-side definitions used for refinement claims -/

/-- The neighbor truncation of `enumerate_csg_rec` as the specification
words it: at or above the relation threshold, exploration is truncated to
the first `|nodes|` candidates; below it, the full list is explored. -/
def specTruncatedNeighbors (total : Nat) (nodes ns : List Nat) : List Nat :=
  if total ≥ RELATION_THRESHOLD then ns.take nodes.length else ns

/-- Removal of the top filter when its predicate list became empty after
pushdown, as the specification words it. -/
def dropEmptyTopFilter (s : SExpr) : Except String SExpr :=
  match s.plan with
  | .filter f =>
    if f.predicates.isEmpty then
      match s.children with
      | c :: _ => .ok c
      | [] => .error "child index"
    else .ok s
  | _ => .ok s

/-- The plan reconstruction as the specification words it: the winning
join tree replaces the first join node found walking down the plan; a
single filter wrapping the union of all residual predicates of the filter
set is placed directly above the replacement; the pushdown rule is applied
repeatedly; an emptied top filter is removed. -/
def specReconstruct (C : Collab) (filters : List Filter) :
    Nat → SExpr → SExpr → Except String SExpr
  | 0, _, _ => .error "out of fuel"
  | fuel + 1, je, s =>
    match s.plan with
    | .join _ =>
      let residual := (filters.map Filter.predicates).flatten
      let spliced := SExpr.mk (.filter ⟨residual, false⟩)
        [(s.withPlan je.plan).withChildren je.children] false
      match push_down_filter C fuel spliced with
      | .error e => .error e
      | .ok pushed => dropEmptyTopFilter pushed
    | _ =>
      match s.children with
      | [] => .error "child index"
      | c :: _ =>
        match specReconstruct C filters fuel je c with
        | .error e => .error e
        | .ok c' => .ok (s.withChildren [c'])

/-! ## Result projections and concrete scenarios for witnesses -/

/-- A placeholder join node (used only as `getD` default). -/
def jnDefault : JoinNode := .mk .inner [] [] [] 0 none none

/-- Plan and flag of an `optimize` result. -/
def optOut (r : Except String ((SExpr × Bool) × DState)) :
    Option (SExpr × Bool) :=
  match r with
  | .ok (p, _) => some p
  | _ => none

/-- Flag and collected conditions of a `get_base_relations` result. -/
def extractFlagCondsOut
    (r : Except String ((SExpr × Bool) × List (Expr × Expr) × DState)) :
    Option (Bool × List (Expr × Expr)) :=
  match r with
  | .ok ((_, b), cs, _) => some (b, cs)
  | _ => none

/-- Number of extracted relations of a `get_base_relations` result. -/
def relCountOut
    (r : Except String ((SExpr × Bool) × List (Expr × Expr) × DState)) :
    Option Nat :=
  match r with
  | .ok (_, _, st) => some st.join_relations.length
  | _ => none

/-- The plan operator two levels down the first children (used to tell
two concrete plans apart). -/
def probeChild2Plan (s : SExpr) : Option RelOp :=
  match s.children with
  | c :: _ =>
    match c.children with
    | c2 :: _ => some c2.plan
    | [] => none
  | [] => none

/-- A trivial collaborator instance (all estimates zero, no rewrite). -/
def collab0 : Collab := ⟨fun _ => 0, fun _ _ => 0, fun _ => none⟩

/-- A collaborator whose join cardinality is the size of the covered
relation subset and whose relation cardinality is one more than the
scanned table index. -/
def collab1 : Collab :=
  ⟨fun s => match s.plan with | .scan t => ((t : ℚ) + 1) | _ => 1,
   fun l _ => (l.length : ℚ), fun _ => none⟩

/-- Witness scenario for the `emit_csg_cmp` update rule: two leaf DP
entries with cardinalities 3 and 7. -/
def w1lj : JoinNode := .mk .inner [0] [] [] 0 (some 3) none

def w1rj : JoinNode := .mk .inner [1] [] [] 0 (some 7) none

def w1St : DState :=
  ⟨[⟨.mk (.scan 0) [] false⟩, ⟨.mk (.scan 1) [] false⟩], [(0, 0), (1, 1)],
    [([0], w1lj), ([1], w1rj)], QueryGraph.empty, []⟩

def w1e1 : Expr := ⟨10, [0]⟩

def w1e2 : Expr := ⟨11, [1]⟩

def w1Res : Bool × DState :=
  match emit_csg_cmp collab1 w1St [0] [1] [(w1e1, w1e2)] with
  | .ok r => r
  | .error _ => (false, w1St)

/-- Witness scenario for the candidate cost formulas: leaf entries with
cardinalities 4 and 2 and one join condition. -/
def w2lj : JoinNode := .mk .inner [0] [] [] 0 (some 4) none

def w2rj : JoinNode := .mk .inner [1] [] [] 0 (some 2) none

def w2St : DState :=
  ⟨[⟨.mk (.scan 0) [] false⟩, ⟨.mk (.scan 1) [] false⟩], [(0, 0), (1, 1)],
    [([0], w2lj), ([1], w2rj)], QueryGraph.empty, []⟩

def w2e1 : Expr := ⟨20, [0]⟩

def w2e2 : Expr := ⟨21, [1]⟩

/-- Counterexample scenario for the swap direction: the left entry has
cardinality 1, strictly smaller than the right entry's 2. -/
def x3lj : JoinNode := .mk .inner [0] [] [] 0 (some 1) none

def x3rj : JoinNode := .mk .inner [1] [] [] 0 (some 2) none

def x3cs : List (Expr × Expr) := [(⟨30, [0]⟩, ⟨31, [1]⟩)]

/-- C4 counterexample: an inner join of two blocking (aggregate) children
whose equi-condition references no tables at all. -/
def x4eL : Expr := ⟨40, []⟩

def x4eR : Expr := ⟨41, []⟩

def x4scanA : SExpr := .mk (.scan 20) [] false

def x4scanB : SExpr := .mk (.scan 21) [] false

def x4P : SExpr :=
  .mk (.join ⟨.inner, [x4eL], [x4eR], []⟩)
    [.mk .aggregate [x4scanA] false, .mk .aggregate [x4scanB] false] false

/-- C4 witness: two scans joined by a condition whose left side
references no tables. -/
def w4eBad : Expr := ⟨42, []⟩

def w4eB : Expr := ⟨43, [31]⟩

def w4P : SExpr :=
  .mk (.join ⟨.inner, [w4eBad], [w4eB], []⟩)
    [.mk (.scan 30) [] false, .mk (.scan 31) [] false] false

def w4Ext : (SExpr × Bool) × List (Expr × Expr) × DState :=
  match get_base_relations collab1 30 w4P [] false none false DState.empty
  with
  | .ok r => r
  | .error _ => ((w4P, false), [], DState.empty)

def w4Res : (SExpr × Bool) × DState :=
  match optimize collab1 31 w4P DState.empty with
  | .ok r => r
  | .error _ => ((w4P, true), DState.empty)

/-- C5 counterexample: a bare cross product of two scans, with no join
predicate at all. -/
def x5P : SExpr :=
  .mk (.join ⟨.cross, [], [], []⟩)
    [.mk (.scan 50) [] false, .mk (.scan 51) [] false] false

/-- C5 witness: another bare cross product (different tables). -/
def w5P : SExpr :=
  .mk (.join ⟨.cross, [], [], []⟩)
    [.mk (.scan 52) [] false, .mk (.scan 53) [] false] false

def w5Ext : (SExpr × Bool) × List (Expr × Expr) × DState :=
  match get_base_relations collab1 20 w5P [] false none false DState.empty
  with
  | .ok r => r
  | .error _ => ((w5P, false), [], DState.empty)

/-- C6 counterexample: an outer inner join (with a table-less condition
side, so `optimize` fails after extraction) above a non-inner join whose
left child is a reorderable inner join — the recursive `new_children`
optimization rewrites that inner join before the failure. -/
def x6eA : Expr := ⟨60, [0]⟩

def x6eB : Expr := ⟨61, [1]⟩

def x6eBad : Expr := ⟨62, []⟩

def x6eD : Expr := ⟨63, [3]⟩

def x6scanA : SExpr := .mk (.scan 0) [] false

def x6scanB : SExpr := .mk (.scan 1) [] false

def x6scanC : SExpr := .mk (.scan 2) [] false

def x6scanD : SExpr := .mk (.scan 3) [] false

def x6inner : SExpr :=
  .mk (.join ⟨.inner, [x6eA], [x6eB], []⟩) [x6scanA, x6scanB] false

def x6mid : SExpr :=
  .mk (.join ⟨.leftOuter, [], [], []⟩) [x6inner, x6scanC] false

def x6P : SExpr :=
  .mk (.join ⟨.inner, [x6eBad], [x6eD], []⟩) [x6mid, x6scanD] false

/-- The plan `optimize` actually returns on `x6P`: the inner join has
been reordered (children flipped, condition operands swapped) by the
recursive subquery optimization even though the overall run fails. -/
def x6innerR : SExpr :=
  .mk (.join ⟨.inner, [x6eB], [x6eA], []⟩) [x6scanB, x6scanA] false

def x6midR : SExpr :=
  .mk (.join ⟨.leftOuter, [], [], []⟩) [x6innerR, x6scanC] false

def x6R : SExpr :=
  .mk (.join ⟨.inner, [x6eBad], [x6eD], []⟩) [x6midR, x6scanD] false

/-- C6 witness: two scans joined by a condition with a table-less side —
`optimize` fails and returns the extraction result. -/
def w6eBad : Expr := ⟨64, []⟩

def w6eB : Expr := ⟨65, [71]⟩

def w6P : SExpr :=
  .mk (.join ⟨.inner, [w6eBad], [w6eB], []⟩)
    [.mk (.scan 70) [] false, .mk (.scan 71) [] false] false

def w6Res : (SExpr × Bool) × DState :=
  match optimize collab1 21 w6P DState.empty with
  | .ok r => r
  | .error _ => ((w6P, true), DState.empty)

/-- C9 witness: disjoint leaf DP entries and a two-relation state for the
initialization part. -/
def w9lj : JoinNode := .mk .inner [0] [] [] 0 (some 5) none

def w9rj : JoinNode := .mk .inner [1] [] [] 0 (some 6) none

def w9St : DState :=
  ⟨[⟨.mk (.scan 0) [] false⟩, ⟨.mk (.scan 1) [] false⟩], [(0, 0), (1, 1)],
    [([0], w9lj), ([1], w9rj)], QueryGraph.empty, []⟩

def w9e1 : Expr := ⟨90, [0]⟩

def w9e2 : Expr := ⟨91, [1]⟩

/-- C10 witness inputs: a concrete `emit_csg_cmp` call and a `solve` run
on the empty state. -/
def w10St : DState :=
  ⟨[], [], [([0], w9lj), ([1], w9rj)], QueryGraph.empty, []⟩

def w10e1 : Expr := ⟨92, [0]⟩

def w10e2 : Expr := ⟨93, [1]⟩

def w10Res : Bool × DState :=
  match emit_csg_cmp collab0 w10St [0] [1] [(w10e1, w10e2)] with
  | .ok r => r
  | .error _ => (false, w10St)

def w10Res2 : Bool × DState :=
  match solve collab0 1 DState.empty with
  | .ok r => r
  | .error _ => (false, DState.empty)

/-! ## DP-table monotonicity infrastructure -/

/-- Costs in `d'` never exceed those in `d` and no key disappears. -/
def dpMono (d d' : List (List Nat × JoinNode)) : Prop :=
  ∀ k v, alookup k d = some v →
    ∃ v', alookup k d' = some v' ∧ v'.cost ≤ v.cost

theorem canon_sorted (l : List Nat) : List.Sorted (· ≤ ·) (canon l) :=
  (List.sorted_insertionSort _ l).sublist (List.dedup_sublist _)

theorem canon_nodup (l : List Nat) : (canon l).Nodup := List.nodup_dedup _

theorem mem_canon (a : Nat) (l : List Nat) : a ∈ canon l ↔ a ∈ l := by
  unfold canon
  rw [List.mem_dedup]
  exact (List.perm_insertionSort _ l).mem_iff

theorem canon_ext (l₁ l₂ : List Nat) (h : ∀ a, a ∈ l₁ ↔ a ∈ l₂) :
    canon l₁ = canon l₂ := by
  apply List.eq_of_perm_of_sorted _ (canon_sorted l₁) (canon_sorted l₂)
  apply List.perm_of_nodup_nodup_toFinset_eq (canon_nodup l₁) (canon_nodup l₂)
  ext a
  simp [List.mem_toFinset, mem_canon, h a]

theorem runion_comm (a b : List Nat) : runion a b = runion b a := by
  apply canon_ext
  intro x
  simp [List.mem_append]
  tauto

theorem mem_runion (x : Nat) (a b : List Nat) :
    x ∈ runion a b ↔ x ∈ a ∨ x ∈ b := by
  simp [runion, mem_canon]

theorem runion_toFinset (a b : List Nat) :
    (runion a b).toFinset = a.toFinset ∪ b.toFinset := by
  ext x
  simp [List.mem_toFinset, mem_runion]

theorem alookup_ainsert_self {α β : Type} [DecidableEq α] (k : α) (v : β)
    (l : List (α × β)) : alookup k (ainsert k v l) = some v := by
  induction l with
  | nil => simp [alookup, ainsert]
  | cons h t ih =>
    obtain ⟨k', v'⟩ := h
    by_cases hk : k' = k
    · simp [alookup, ainsert, hk]
    · simp [alookup, ainsert, hk, ih]

theorem alookup_ainsert_ne {α β : Type} [DecidableEq α] (k k' : α) (v : β)
    (l : List (α × β)) (h : k' ≠ k) :
    alookup k' (ainsert k v l) = alookup k' l := by
  induction l with
  | nil => simp [alookup, ainsert, Ne.symm h]
  | cons hd t ih =>
    obtain ⟨k₀, v₀⟩ := hd
    by_cases hk : k₀ = k
    · subst hk
      simp [alookup, ainsert, h, Ne.symm h]
    · simp [alookup, ainsert, hk, ih]

theorem dpMono_refl (d : List (List Nat × JoinNode)) : dpMono d d :=
  fun _ v h => ⟨v, h, le_refl _⟩

theorem dpMono_trans {d₁ d₂ d₃ : List (List Nat × JoinNode)}
    (h₁ : dpMono d₁ d₂) (h₂ : dpMono d₂ d₃) : dpMono d₁ d₃ := by
  intro k v h
  obtain ⟨v', hv', hc'⟩ := h₁ k v h
  obtain ⟨v'', hv'', hc''⟩ := h₂ k v' hv'
  exact ⟨v'', hv'', le_trans hc'' hc'⟩

/-- One `emit_csg_cmp` call never increases the cost of any DP entry. -/
theorem emit_csg_cmp_dpMono (C : Collab) (st : DState) (l r : List Nat)
    (cs : List (Expr × Expr)) (res : Bool × DState)
    (h : emit_csg_cmp C st l r cs = .ok res) :
    dpMono st.dp_table res.2.dp_table := by
  unfold emit_csg_cmp at h
  cases hl : alookup l st.dp_table with
  | none => rw [hl] at h; exact absurd h (by simp)
  | some lj =>
    cases hr : alookup r st.dp_table with
    | none => rw [hl, hr] at h; exact absurd h (by simp)
    | some rj =>
      rw [hl, hr] at h
      simp only at h
      cases hp : alookup (runion l r) st.dp_table with
      | none =>
        rw [hp] at h
        simp only [Except.ok.injEq] at h
        subst h
        intro k v hk
        by_cases hkp : k = runion l r
        · subst hkp
          rw [hk] at hp
          exact absurd hp (by simp)
        · exact ⟨v, by rw [alookup_ainsert_ne _ _ _ _ hkp]; exact hk,
            le_refl _⟩
      | some old =>
        rw [hp] at h
        simp only at h
        by_cases hc : old.cost > (csgCmpCandidate C l r lj rj cs).cost
        · rw [if_pos hc] at h
          simp only [Except.ok.injEq] at h
          subst h
          intro k v hk
          by_cases hkp : k = runion l r
          · subst hkp
            refine ⟨csgCmpCandidate C l r lj rj cs,
              alookup_ainsert_self _ _ _, ?_⟩
            rw [hk] at hp
            simp only [Option.some.injEq] at hp
            subst hp
            exact le_of_lt hc
          · exact ⟨v, by rw [alookup_ainsert_ne _ _ _ _ hkp]; exact hk,
              le_refl _⟩
        · rw [if_neg hc] at h
          simp only [Except.ok.injEq] at h
          subst h
          exact dpMono_refl _

/-- Across the whole enumeration (each function of the mutual csg-cmp
recursion), no DP-table entry's cost ever increases. -/
theorem enumMono (C : Collab) : ∀ fuel : Nat,
    (∀ st nodes res, emit_csg C fuel st nodes = .ok res →
      dpMono st.dp_table res.2.dp_table) ∧
    (∀ st nodes forb nbs res,
      emitCsgNeighborLoop C fuel st nodes forb nbs = .ok res →
      dpMono st.dp_table res.2.dp_table) ∧
    (∀ st nodes forb res, enumerate_csg_rec C fuel st nodes forb = .ok res →
      dpMono st.dp_table res.2.dp_table) ∧
    (∀ st nodes forb nbs res, csgRecBody C fuel st nodes forb nbs = .ok res →
      dpMono st.dp_table res.2.dp_table) ∧
    (∀ st nodes nbs res, csgEmitLoop C fuel st nodes nbs = .ok res →
      dpMono st.dp_table res.2.1.dp_table) ∧
    (∀ st pairs fo fa res, csgRecurseLoop C fuel st pairs fo fa = .ok res →
      dpMono st.dp_table res.2.dp_table) ∧
    (∀ st left right forb res,
      enumerate_cmp_rec C fuel st left right forb = .ok res →
      dpMono st.dp_table res.2.dp_table) ∧
    (∀ st left right nbs res, cmpEmitLoop C fuel st left right nbs = .ok res →
      dpMono st.dp_table res.2.1.dp_table) ∧
    (∀ st left pairs fa res, cmpRecurseLoop C fuel st left pairs fa = .ok res →
      dpMono st.dp_table res.2.dp_table) := by
  intro fuel
  induction fuel with
  | zero =>
    refine ⟨?_, ?_, ?_, ?_, ?_, ?_, ?_, ?_, ?_⟩
    · intro st nodes res h
      exact Except.noConfusion h
    · intro st nodes forb nbs res h
      exact Except.noConfusion h
    · intro st nodes forb res h
      exact Except.noConfusion h
    · intro st nodes forb nbs res h
      exact Except.noConfusion h
    · intro st nodes nbs res h
      exact Except.noConfusion h
    · intro st pairs fo fa res h
      exact Except.noConfusion h
    · intro st left right forb res h
      exact Except.noConfusion h
    · intro st left right nbs res h
      exact Except.noConfusion h
    · intro st left pairs fa res h
      exact Except.noConfusion h
  | succ n ih =>
    obtain ⟨ihA, ihB, ihC, ihD, ihE, ihF, ihG, ihH, ihI⟩ := ih
    refine ⟨?_, ?_, ?_, ?_, ?_, ?_, ?_, ?_, ?_⟩
    · -- emit_csg
      intro st nodes res h
      simp only [emit_csg] at h
      split at h
      · injection h with h'
        subst h'
        exact dpMono_refl _
      · split at h
        · exact Except.noConfusion h
        · split at h
          · injection h with h'
            subst h'
            exact dpMono_refl _
          · exact ihB _ _ _ _ _ h
    · -- emitCsgNeighborLoop
      intro st nodes forb nbs res h
      simp only [emitCsgNeighborLoop] at h
      split at h
      · injection h with h'
        subst h'
        exact dpMono_refl _
      · rename_i nb rest
        split at h
        · exact Except.noConfusion h
        · rename_i b1 st1 heq
          have mono1 : dpMono st.dp_table st1.dp_table := by
            split at heq
            · injection heq with heq'
              injection heq' with hb hst
              subst hst
              exact dpMono_refl _
            · exact emit_csg_cmp_dpMono _ _ _ _ _ _ heq
          split at h
          · injection h with h'
            subst h'
            exact mono1
          · split at h
            · exact Except.noConfusion h
            · rename_i b2 st2 heq2
              have mono2 : dpMono st1.dp_table st2.dp_table :=
                ihG _ _ _ _ _ heq2
              split at h
              · injection h with h'
                subst h'
                exact dpMono_trans mono1 mono2
              · exact dpMono_trans (dpMono_trans mono1 mono2)
                  (ihB _ _ _ _ _ h)
    · -- enumerate_csg_rec
      intro st nodes forb res h
      simp only [enumerate_csg_rec] at h
      split at h
      · injection h with h'
        subst h'
        exact dpMono_refl _
      · exact ihD _ _ _ _ _ h
    · -- csgRecBody
      intro st nodes forb nbs res h
      simp only [csgRecBody] at h
      split at h
      · exact Except.noConfusion h
      · rename_i b st1 merged heq
        have mono1 : dpMono st.dp_table st1.dp_table :=
          ihE _ _ _ _ heq
        split at h
        · injection h with h'
          subst h'
          exact mono1
        · exact dpMono_trans mono1 (ihF _ _ _ _ _ h)
    · -- csgEmitLoop
      intro st nodes nbs res h
      simp only [csgEmitLoop] at h
      split at h
      · injection h with h'
        subst h'
        exact dpMono_refl _
      · rename_i nb rest
        split at h
        · exact Except.noConfusion h
        · rename_i b st1 heq
          have mono1 : dpMono st.dp_table st1.dp_table := by
            split at heq
            · exact ihA _ _ _ heq
            · injection heq with heq'
              injection heq' with hb hst
              subst hst
              exact dpMono_refl _
          split at h
          · injection h with h'
            subst h'
            exact mono1
          · split at h
            · exact Except.noConfusion h
            · rename_i b' st2 ms heq2
              injection h with h'
              subst h'
              exact dpMono_trans mono1 (ihE st1 nodes rest (b', st2, ms) heq2)
    · -- csgRecurseLoop
      intro st pairs fo fa res h
      simp only [csgRecurseLoop] at h
      split at h
      · injection h with h'
        subst h'
        exact dpMono_refl _
      · rename_i nb merged rest
        split at h
        · exact Except.noConfusion h
        · rename_i b st1 heq
          have mono1 : dpMono st.dp_table st1.dp_table :=
            ihC _ _ _ _ heq
          split at h
          · injection h with h'
            subst h'
            exact mono1
          · exact dpMono_trans mono1 (ihF _ _ _ _ _ h)
    · -- enumerate_cmp_rec
      intro st left right forb res h
      simp only [enumerate_cmp_rec] at h
      split at h
      · injection h with h'
        subst h'
        exact dpMono_refl _
      · split at h
        · exact Except.noConfusion h
        · rename_i b st1 merged heq
          have mono1 : dpMono st.dp_table st1.dp_table :=
            ihH _ _ _ _ _ heq
          split at h
          · injection h with h'
            subst h'
            exact mono1
          · exact dpMono_trans mono1 (ihI _ _ _ _ _ h)
    · -- cmpEmitLoop
      intro st left right nbs res h
      simp only [cmpEmitLoop] at h
      split at h
      · injection h with h'
        subst h'
        exact dpMono_refl _
      · rename_i nb rest
        split at h
        · exact Except.noConfusion h
        · rename_i b st1 heq
          have mono1 : dpMono st.dp_table st1.dp_table := by
            split at heq
            · exact emit_csg_cmp_dpMono _ _ _ _ _ _ heq
            · injection heq with heq'
              injection heq' with hb hst
              subst hst
              exact dpMono_refl _
          split at h
          · injection h with h'
            subst h'
            exact mono1
          · split at h
            · exact Except.noConfusion h
            · rename_i b' st2 ms heq2
              injection h with h'
              subst h'
              exact dpMono_trans mono1
                (ihH st1 left right rest (b', st2, ms) heq2)
    · -- cmpRecurseLoop
      intro st left pairs fa res h
      simp only [cmpRecurseLoop] at h
      split at h
      · injection h with h'
        subst h'
        exact dpMono_refl _
      · rename_i nb merged rest
        split at h
        · exact Except.noConfusion h
        · rename_i b st1 heq
          have mono1 : dpMono st.dp_table st1.dp_table :=
            ihG _ _ _ _ _ heq
          split at h
          · injection h with h'
            subst h'
            exact mono1
          · exact dpMono_trans mono1 (ihI _ _ _ _ _ h)

/-- No DP-table entry's cost ever increases across the main loop of
`solve` (the whole enumeration). -/
theorem solveLoop_dpMono (C : Collab) : ∀ (fuel : Nat) (idxs : List Nat)
    (st : DState) (res : Bool × DState),
    solveLoop C fuel idxs st = .ok res →
    dpMono st.dp_table res.2.dp_table := by
  intro fuel
  induction fuel with
  | zero =>
    intro idxs st res h
    exact Except.noConfusion h
  | succ n ih =>
    intro idxs st res h
    simp only [solveLoop] at h
    split at h
    · injection h with h'
      subst h'
      exact dpMono_refl _
    · split at h
      · exact Except.noConfusion h
      · rename_i b1 st1 heq
        have m1 : dpMono st.dp_table st1.dp_table :=
          (enumMono C n).1 _ _ _ heq
        split at h
        · injection h with h'
          subst h'
          exact m1
        · split at h
          · exact Except.noConfusion h
          · rename_i b2 st2 heq2
            have m2 : dpMono st1.dp_table st2.dp_table :=
              (enumMono C n).2.2.1 _ _ _ _ heq2
            split at h
            · injection h with h'
              subst h'
              exact dpMono_trans m1 m2
            · exact dpMono_trans (dpMono_trans m1 m2) (ih _ _ _ h)

/-- `emit_csg_cmp` never fails with `Ok(false)`: any `Ok` result carries
`true`. -/
theorem emit_csg_cmp_true (C : Collab) (st : DState) (l r : List Nat)
    (cs : List (Expr × Expr)) (res : Bool × DState)
    (h : emit_csg_cmp C st l r cs = .ok res) : res.1 = true := by
  unfold emit_csg_cmp at h
  cases hl : alookup l st.dp_table with
  | none => rw [hl] at h; exact Except.noConfusion h
  | some lj =>
    cases hr : alookup r st.dp_table with
    | none => rw [hl, hr] at h; exact Except.noConfusion h
    | some rj =>
      rw [hl, hr] at h
      simp only at h
      cases hp : alookup (runion l r) st.dp_table with
      | none =>
        rw [hp] at h
        injection h with h'
        subst h'
        rfl
      | some old =>
        rw [hp] at h
        simp only at h
        split at h <;>
          (injection h with h'; subst h'; rfl)

/-- Every `Ok` result of the mutual csg-cmp enumeration carries `true`:
the `false`-propagating branches are unreachable. -/
theorem enumAllTrue (C : Collab) : ∀ fuel : Nat,
    (∀ st nodes res, emit_csg C fuel st nodes = .ok res → res.1 = true) ∧
    (∀ st nodes forb nbs res,
      emitCsgNeighborLoop C fuel st nodes forb nbs = .ok res →
      res.1 = true) ∧
    (∀ st nodes forb res, enumerate_csg_rec C fuel st nodes forb = .ok res →
      res.1 = true) ∧
    (∀ st nodes forb nbs res, csgRecBody C fuel st nodes forb nbs = .ok res →
      res.1 = true) ∧
    (∀ st nodes nbs res, csgEmitLoop C fuel st nodes nbs = .ok res →
      res.1 = true) ∧
    (∀ st pairs fo fa res, csgRecurseLoop C fuel st pairs fo fa = .ok res →
      res.1 = true) ∧
    (∀ st left right forb res,
      enumerate_cmp_rec C fuel st left right forb = .ok res →
      res.1 = true) ∧
    (∀ st left right nbs res, cmpEmitLoop C fuel st left right nbs = .ok res →
      res.1 = true) ∧
    (∀ st left pairs fa res, cmpRecurseLoop C fuel st left pairs fa = .ok res →
      res.1 = true) := by
  intro fuel
  induction fuel with
  | zero =>
    refine ⟨?_, ?_, ?_, ?_, ?_, ?_, ?_, ?_, ?_⟩ <;>
      · intros
        rename_i h
        exact Except.noConfusion h
  | succ n ih =>
    obtain ⟨ihA, ihB, ihC, ihD, ihE, ihF, ihG, ihH, ihI⟩ := ih
    refine ⟨?_, ?_, ?_, ?_, ?_, ?_, ?_, ?_, ?_⟩
    · intro st nodes res h
      simp only [emit_csg] at h
      split at h
      · injection h with h'
        subst h'
        rfl
      · split at h
        · exact Except.noConfusion h
        · split at h
          · injection h with h'
            subst h'
            rfl
          · exact ihB _ _ _ _ _ h
    · intro st nodes forb nbs res h
      simp only [emitCsgNeighborLoop] at h
      split at h
      · injection h with h'
        subst h'
        rfl
      · rename_i nb rest
        split at h
        · exact Except.noConfusion h
        · rename_i b1 st1 heq
          have hb1 : b1 = true := by
            split at heq
            · injection heq with heq'
              injection heq' with hb hst
              exact hb.symm
            · exact emit_csg_cmp_true _ _ _ _ _ _ heq
          subst hb1
          simp only [Bool.not_true, Bool.false_eq_true, if_false] at h
          split at h
          · exact Except.noConfusion h
          · rename_i b2 st2 heq2
            have hb2 : b2 = true := ihG _ _ _ _ _ heq2
            subst hb2
            simp only [Bool.not_true, Bool.false_eq_true, if_false] at h
            exact ihB _ _ _ _ _ h
    · intro st nodes forb res h
      simp only [enumerate_csg_rec] at h
      split at h
      · injection h with h'
        subst h'
        rfl
      · exact ihD _ _ _ _ _ h
    · intro st nodes forb nbs res h
      simp only [csgRecBody] at h
      split at h
      · exact Except.noConfusion h
      · rename_i b st1 merged heq
        have hb : b = true := ihE _ _ _ _ heq
        subst hb
        simp only [Bool.not_true, Bool.false_eq_true, if_false] at h
        exact ihF _ _ _ _ _ h
    · intro st nodes nbs res h
      simp only [csgEmitLoop] at h
      split at h
      · injection h with h'
        subst h'
        rfl
      · rename_i nb rest
        split at h
        · exact Except.noConfusion h
        · rename_i b st1 heq
          have hb : b = true := by
            split at heq
            · exact ihA _ _ _ heq
            · injection heq with heq'
              injection heq' with hb hst
              exact hb.symm
          subst hb
          simp only [Bool.not_true, Bool.false_eq_true, if_false] at h
          split at h
          · exact Except.noConfusion h
          · rename_i b' st2 ms heq2
            have hb' : b' = true := ihE st1 nodes rest (b', st2, ms) heq2
            subst hb'
            injection h with h'
            subst h'
            rfl
    · intro st pairs fo fa res h
      simp only [csgRecurseLoop] at h
      split at h
      · injection h with h'
        subst h'
        rfl
      · rename_i nb merged rest
        split at h
        · exact Except.noConfusion h
        · rename_i b st1 heq
          have hb : b = true := ihC _ _ _ _ heq
          subst hb
          simp only [Bool.not_true, Bool.false_eq_true, if_false] at h
          exact ihF _ _ _ _ _ h
    · intro st left right forb res h
      simp only [enumerate_cmp_rec] at h
      split at h
      · injection h with h'
        subst h'
        rfl
      · split at h
        · exact Except.noConfusion h
        · rename_i b st1 merged heq
          have hb : b = true := ihH _ _ _ _ _ heq
          subst hb
          simp only [Bool.not_true, Bool.false_eq_true, if_false] at h
          exact ihI _ _ _ _ _ h
    · intro st left right nbs res h
      simp only [cmpEmitLoop] at h
      split at h
      · injection h with h'
        subst h'
        rfl
      · rename_i nb rest
        split at h
        · exact Except.noConfusion h
        · rename_i b st1 heq
          have hb : b = true := by
            split at heq
            · exact emit_csg_cmp_true _ _ _ _ _ _ heq
            · injection heq with heq'
              injection heq' with hb hst
              exact hb.symm
          subst hb
          simp only [Bool.not_true, Bool.false_eq_true, if_false] at h
          split at h
          · exact Except.noConfusion h
          · rename_i b' st2 ms heq2
            have hb' : b' = true :=
              ihH st1 left right rest (b', st2, ms) heq2
            subst hb'
            injection h with h'
            subst h'
            rfl
    · intro st left pairs fa res h
      simp only [cmpRecurseLoop] at h
      split at h
      · injection h with h'
        subst h'
        rfl
      · rename_i nb merged rest
        split at h
        · exact Except.noConfusion h
        · rename_i b st1 heq
          have hb : b = true := ihG _ _ _ _ _ heq
          subst hb
          simp only [Bool.not_true, Bool.false_eq_true, if_false] at h
          exact ihI _ _ _ _ _ h

/-- Any `Ok` result of the main loop of `solve` carries `true`. -/
theorem solveLoop_true (C : Collab) : ∀ (fuel : Nat) (idxs : List Nat)
    (st : DState) (res : Bool × DState),
    solveLoop C fuel idxs st = .ok res → res.1 = true := by
  intro fuel
  induction fuel with
  | zero =>
    intro idxs st res h
    exact Except.noConfusion h
  | succ n ih =>
    intro idxs st res h
    simp only [solveLoop] at h
    split at h
    · injection h with h'
      subst h'
      rfl
    · split at h
      · exact Except.noConfusion h
      · rename_i b1 st1 heq
        have hb1 : b1 = true := (enumAllTrue C n).1 _ _ _ heq
        subst hb1
        simp only [Bool.not_true, Bool.false_eq_true, if_false] at h
        split at h
        · exact Except.noConfusion h
        · rename_i b2 st2 heq2
          have hb2 : b2 = true := (enumAllTrue C n).2.2.1 _ _ _ _ heq2
          subst hb2
          simp only [Bool.not_true, Bool.false_eq_true, if_false] at h
          exact ih _ _ _ h

/-! ## `JoinNode` accessor lemmas -/

theorem getCardM_cost (C : Collab) (n : JoinNode) :
    ((n.getCardM C).2).cost = n.cost := by
  cases n with
  | mk t l ch j c ca s =>
    cases ca <;> rfl

theorem getCardM_leaves (C : Collab) (n : JoinNode) :
    ((n.getCardM C).2).leaves = n.leaves := by
  cases n with
  | mk t l ch j c ca s =>
    cases ca <;> rfl

theorem getCardM_getCard (C : Collab) (n : JoinNode) :
    ((n.getCardM C).2).getCard C = n.getCard C := by
  cases n with
  | mk t l ch j c ca s =>
    cases ca <;> rfl

/-- Characterization of the DP-table update performed by one successful
`emit_csg_cmp` call. -/
theorem emit_csg_cmp_update (C : Collab) (st : DState) (l r : List Nat)
    (cs : List (Expr × Expr)) (lj rj : JoinNode) (res : Bool × DState)
    (hl : alookup l st.dp_table = some lj)
    (hr : alookup r st.dp_table = some rj)
    (hcall : emit_csg_cmp C st l r cs = .ok res) :
    (∀ k, k ≠ runion l r →
      alookup k res.2.dp_table = alookup k st.dp_table) ∧
    alookup (runion l r) res.2.dp_table =
      some (match alookup (runion l r) st.dp_table with
        | none => csgCmpCandidate C l r lj rj cs
        | some old =>
          if (csgCmpCandidate C l r lj rj cs).cost < old.cost then
            csgCmpCandidate C l r lj rj cs
          else old) := by
  unfold emit_csg_cmp at hcall
  rw [hl, hr] at hcall
  simp only at hcall
  cases hp : alookup (runion l r) st.dp_table with
  | none =>
    rw [hp] at hcall
    injection hcall with h'
    subst h'
    refine ⟨?_, ?_⟩
    · intro k hk
      exact alookup_ainsert_ne _ _ _ _ hk
    · simp only [alookup_ainsert_self]
  | some old =>
    rw [hp] at hcall
    simp only at hcall
    by_cases hc : old.cost > (csgCmpCandidate C l r lj rj cs).cost
    · rw [if_pos hc] at hcall
      injection hcall with h'
      subst h'
      refine ⟨?_, ?_⟩
      · intro k hk
        exact alookup_ainsert_ne _ _ _ _ hk
      · rw [alookup_ainsert_self]
        exact congrArg some (if_pos hc).symm
    · rw [if_neg hc] at hcall
      injection hcall with h'
      subst h'
      refine ⟨fun k _ => rfl, ?_⟩
      rw [hp]
      exact congrArg some (if_neg hc).symm

/-! ## Structure of the candidate node -/

theorem csgCmpCandidate_children_eq (C : Collab) (l r : List Nat)
    (lj rj : JoinNode) (cs : List (Expr × Expr)) :
    (csgCmpCandidate C l r lj rj cs).children =
      if (lj.getCardM C).1 < (rj.getCardM C).1 then
        [(rj.getCardM C).2, (lj.getCardM C).2]
      else [(lj.getCardM C).2, (rj.getCardM C).2] := by
  by_cases hlt : (lj.getCardM C).1 < (rj.getCardM C).1
  · simp only [csgCmpCandidate, if_pos hlt]
    split <;> rfl
  · simp only [csgCmpCandidate, if_neg hlt]
    split <;> rfl

theorem csgCmpCandidate_conds_eq (C : Collab) (l r : List Nat)
    (lj rj : JoinNode) (cs : List (Expr × Expr)) :
    (csgCmpCandidate C l r lj rj cs).join_conditions =
      if (lj.getCardM C).1 < (rj.getCardM C).1 then
        cs.map (fun c => (c.2, c.1))
      else cs := by
  by_cases hlt : (lj.getCardM C).1 < (rj.getCardM C).1
  · simp only [csgCmpCandidate, if_pos hlt]
    split
    · rfl
    · rename_i h
      rw [Bool.not_eq_true', Bool.not_eq_false] at h
      rw [List.isEmpty_iff] at h
      exact h.symm
  · simp only [csgCmpCandidate, if_neg hlt]
    split
    · rfl
    · rename_i h
      rw [Bool.not_eq_true', Bool.not_eq_false] at h
      rw [List.isEmpty_iff] at h
      exact h.symm

theorem csgCmpCandidate_leaves_eq (C : Collab) (l r : List Nat)
    (lj rj : JoinNode) (cs : List (Expr × Expr)) :
    (csgCmpCandidate C l r lj rj cs).leaves = runion l r := by
  simp only [csgCmpCandidate]
  split <;> split <;> rfl

theorem csgCmpCandidate_type_inner (C : Collab) (l r : List Nat)
    (lj rj : JoinNode) (cs : List (Expr × Expr)) (hcs : cs ≠ []) :
    (csgCmpCandidate C l r lj rj cs).join_type = .inner := by
  obtain ⟨c0, cs', rfl⟩ := List.exists_cons_of_ne_nil hcs
  simp only [csgCmpCandidate]
  split <;> rfl

theorem csgCmpCandidate_type_cross (C : Collab) (l r : List Nat)
    (lj rj : JoinNode) :
    (csgCmpCandidate C l r lj rj []).join_type = .cross := by
  simp only [csgCmpCandidate]
  split <;> rfl

theorem csgCmpCandidate_eq_inner (C : Collab) (l r : List Nat)
    (lj rj : JoinNode) (c0 : Expr × Expr) (cs' : List (Expr × Expr)) :
    csgCmpCandidate C l r lj rj (c0 :: cs') =
      (let pl := lj.getCardM C
       let pr := rj.getCardM C
       let conds :=
         if pl.1 < pr.1 then (c0 :: cs').map (fun c => (c.2, c.1))
         else c0 :: cs'
       let ch := if pl.1 < pr.1 then (pr.2, pl.2) else (pl.2, pr.2)
       JoinNode.mk .inner (runion l r) [ch.1, ch.2] conds
         (C.joinCard (runion l r) conds + ch.1.cost + ch.2.cost)
         (some (C.joinCard (runion l r) conds)) none) := by
  by_cases hlt : (lj.getCardM C).1 < (rj.getCardM C).1
  · simp only [csgCmpCandidate, if_pos hlt]
    rfl
  · simp only [csgCmpCandidate, if_neg hlt]
    rfl

theorem csgCmpCandidate_eq_cross (C : Collab) (l r : List Nat)
    (lj rj : JoinNode) :
    csgCmpCandidate C l r lj rj [] =
      (let pl := lj.getCardM C
       let pr := rj.getCardM C
       let ch := if pl.1 < pr.1 then (pr.2, pl.2) else (pl.2, pr.2)
       JoinNode.mk .cross (runion l r) [ch.1, ch.2] [] (pl.1 * pr.1)
         none none) := by
  by_cases hlt : (lj.getCardM C).1 < (rj.getCardM C).1
  · simp only [csgCmpCandidate, if_pos hlt]
    rfl
  · simp only [csgCmpCandidate, if_neg hlt]
    rfl

theorem csgCmpCandidate_card_inner (C : Collab) (l r : List Nat)
    (lj rj : JoinNode) (cs : List (Expr × Expr)) (hcs : cs ≠ []) :
    (csgCmpCandidate C l r lj rj cs).cardinality =
      some (C.joinCard (runion l r)
        (csgCmpCandidate C l r lj rj cs).join_conditions) := by
  obtain ⟨c0, cs', rfl⟩ := List.exists_cons_of_ne_nil hcs
  rw [csgCmpCandidate_eq_inner]
  rfl

theorem csgCmpCandidate_cost_inner (C : Collab) (l r : List Nat)
    (lj rj : JoinNode) (cs : List (Expr × Expr)) (hcs : cs ≠ []) :
    (csgCmpCandidate C l r lj rj cs).cost =
      C.joinCard (runion l r)
        (csgCmpCandidate C l r lj rj cs).join_conditions
      + lj.cost + rj.cost := by
  obtain ⟨c0, cs', rfl⟩ := List.exists_cons_of_ne_nil hcs
  rw [csgCmpCandidate_conds_eq, csgCmpCandidate_eq_inner]
  show C.joinCard (runion l r)
      (if (lj.getCardM C).1 < (rj.getCardM C).1 then
        (c0 :: cs').map (fun c => (c.2, c.1))
      else c0 :: cs') +
      (if (lj.getCardM C).1 < (rj.getCardM C).1 then
        ((rj.getCardM C).2, (lj.getCardM C).2)
      else ((lj.getCardM C).2, (rj.getCardM C).2)).1.cost +
      (if (lj.getCardM C).1 < (rj.getCardM C).1 then
        ((rj.getCardM C).2, (lj.getCardM C).2)
      else ((lj.getCardM C).2, (rj.getCardM C).2)).2.cost
    = C.joinCard (runion l r)
      (if (lj.getCardM C).1 < (rj.getCardM C).1 then
        (c0 :: cs').map (fun c => (c.2, c.1))
      else c0 :: cs') + lj.cost + rj.cost
  split
  · rw [getCardM_cost, getCardM_cost]
    ring
  · rw [getCardM_cost, getCardM_cost]

theorem csgCmpCandidate_cost_cross (C : Collab) (l r : List Nat)
    (lj rj : JoinNode) :
    (csgCmpCandidate C l r lj rj []).cost =
      lj.getCard C * rj.getCard C := by
  rw [csgCmpCandidate_eq_cross]
  rfl

/-! ## Claim theorems -/

/-- C1: in `emit_csg_cmp`, for subsets `left` and `right` with existing
DP entries, the entry for `left ∪ right` is written only when no entry
exists or the new candidate's cost is strictly lower than the existing
entry's cost; on a tie the existing (first-found) entry is kept; and the
cost of any DP-table entry never increases across the whole enumeration
(the main loop of `solve`). -/
theorem claim_C1 (C : Collab) (st : DState) (l r : List Nat)
    (cs : List (Expr × Expr)) (lj rj : JoinNode) (res : Bool × DState)
    (hl : alookup l st.dp_table = some lj)
    (hr : alookup r st.dp_table = some rj)
    (hcall : emit_csg_cmp C st l r cs = .ok res) :
    ((∀ k, k ≠ runion l r →
       alookup k res.2.dp_table = alookup k st.dp_table) ∧
     alookup (runion l r) res.2.dp_table =
       some (match alookup (runion l r) st.dp_table with
         | none => csgCmpCandidate C l r lj rj cs
         | some old =>
           if (csgCmpCandidate C l r lj rj cs).cost < old.cost then
             csgCmpCandidate C l r lj rj cs
           else old)) ∧
    (∀ fuel idxs st0 res0, solveLoop C fuel idxs st0 = .ok res0 →
      dpMono st0.dp_table res0.2.dp_table) :=
  ⟨emit_csg_cmp_update C st l r cs lj rj res hl hr hcall,
   fun fuel idxs st0 res0 h => solveLoop_dpMono C fuel idxs st0 res0 h⟩

/-- Witness for C1: on a table with entries for `[0]` and `[1]` and no
entry for `[0, 1]`, the call writes exactly the candidate node. -/
theorem claim_C1_witness :
    alookup (runion [0] [1]) w1Res.2.dp_table =
      some (csgCmpCandidate collab1 [0] [1] w1lj w1rj [(w1e1, w1e2)]) := by
  have h := claim_C1 collab1 w1St [0] [1] [(w1e1, w1e2)] w1lj w1rj w1Res
    rfl rfl (by with_unfolding_all rfl)
  have h2 := h.1.2
  rw [show alookup (runion [0] [1]) w1St.dp_table = none from
    by with_unfolding_all rfl] at h2
  exact h2

/-- C7: in `enumerate_csg_rec`, with at least the threshold (10) many
extracted relations the neighbor list explored at this level is truncated
to its first `|nodes|` elements, and below the threshold the full list is
explored (refinement against the spec-side truncation). -/
theorem claim_C7 (C : Collab) (fuel : Nat) (st : DState)
    (nodes forbidden : List Nat) :
    enumerate_csg_rec C (fuel + 1) st nodes forbidden =
      (let nbs := st.query_graph.neighbors nodes forbidden
       if nbs.isEmpty then .ok (true, st)
       else csgRecBody C fuel st nodes forbidden
         (specTruncatedNeighbors st.join_relations.length nodes nbs)) :=
  rfl

/-- C10: `emit_csg_cmp` unconditionally returns `Ok(true)`, and any
non-error result of `solve` carries `true` — so a disconnected graph can
only be detected afterwards by the absence of the full-set DP entry, not
by `solve`'s boolean. -/
theorem claim_C10 (C : Collab) (st : DState) (l r : List Nat)
    (cs : List (Expr × Expr)) (res1 : Bool × DState)
    (fuel : Nat) (st2 : DState) (res2 : Bool × DState)
    (h1 : emit_csg_cmp C st l r cs = .ok res1)
    (h2 : solve C fuel st2 = .ok res2) :
    res1.1 = true ∧ res2.1 = true :=
  ⟨emit_csg_cmp_true C st l r cs res1 h1,
   solveLoop_true C fuel _ _ res2 h2⟩

/-- A successful `emit_csg_cmp` call exists whenever both DP entries
exist. -/
theorem emit_csg_cmp_ok (C : Collab) (st : DState) (l r : List Nat)
    (cs : List (Expr × Expr)) (lj rj : JoinNode)
    (hl : alookup l st.dp_table = some lj)
    (hr : alookup r st.dp_table = some rj) :
    ∃ res, emit_csg_cmp C st l r cs = .ok res := by
  unfold emit_csg_cmp
  rw [hl, hr]
  simp only
  cases alookup (runion l r) st.dp_table
  · exact ⟨_, rfl⟩
  · simp only
    split
    · exact ⟨_, rfl⟩
    · exact ⟨_, rfl⟩

/-- C2: for a call of `emit_csg_cmp` on subsets with DP entries, a
non-empty condition list yields an inner-join candidate whose cost is the
estimator's cardinality of `left ∪ right` plus both children's costs,
while an empty condition list yields a cross-join candidate whose cost is
the product of the two children's cardinalities with no children's costs
added. -/
theorem claim_C2 (C : Collab) (st : DState) (l r : List Nat)
    (cs : List (Expr × Expr)) (lj rj : JoinNode)
    (hl : alookup l st.dp_table = some lj)
    (hr : alookup r st.dp_table = some rj) :
    (cs ≠ [] →
      (csgCmpCandidate C l r lj rj cs).join_type = .inner ∧
      (csgCmpCandidate C l r lj rj cs).cardinality =
        some (C.joinCard (runion l r)
          (csgCmpCandidate C l r lj rj cs).join_conditions) ∧
      (csgCmpCandidate C l r lj rj cs).cost =
        C.joinCard (runion l r)
          (csgCmpCandidate C l r lj rj cs).join_conditions
        + lj.cost + rj.cost) ∧
    (cs = [] →
      (csgCmpCandidate C l r lj rj cs).join_type = .cross ∧
      (csgCmpCandidate C l r lj rj cs).cost =
        lj.getCard C * rj.getCard C) ∧
    (∃ res, emit_csg_cmp C st l r cs = .ok res) := by
  refine ⟨fun hcs => ⟨csgCmpCandidate_type_inner C l r lj rj cs hcs,
    csgCmpCandidate_card_inner C l r lj rj cs hcs,
    csgCmpCandidate_cost_inner C l r lj rj cs hcs⟩,
    fun hcs => ?_, emit_csg_cmp_ok C st l r cs lj rj hl hr⟩
  subst hcs
  exact ⟨csgCmpCandidate_type_cross C l r lj rj,
    csgCmpCandidate_cost_cross C l r lj rj⟩

/-- Witness for C2: concrete leaf entries of cardinalities 4 and 2 with
one join condition — the inner-join cost formula holds. -/
theorem claim_C2_witness :
    (alookup [0] w2St.dp_table = some w2lj) ∧
    ([(w2e1, w2e2)] ≠ ([] : List (Expr × Expr))) ∧
    (csgCmpCandidate collab1 [0] [1] w2lj w2rj [(w2e1, w2e2)]).cost =
      collab1.joinCard (runion [0] [1])
        (csgCmpCandidate collab1 [0] [1] w2lj w2rj
          [(w2e1, w2e2)]).join_conditions
      + w2lj.cost + w2rj.cost := by
  refine ⟨rfl, by decide, ?_⟩
  have h := claim_C2 collab1 w2St [0] [1] [(w2e1, w2e2)] w2lj w2rj rfl rfl
  exact (h.1 (by decide)).2.2

/-- Counterexample for C3: with left cardinality 1 and right cardinality
2, the right side is not smaller than the left, yet the condition operand
order is swapped — refuting "swapped exactly when the right side's
cardinality is smaller". -/
theorem claim_C3_counterexample :
    ¬ (x3rj.getCard collab0 < x3lj.getCard collab0) ∧
    (csgCmpCandidate collab0 [0] [1] x3lj x3rj x3cs).join_conditions ≠
      x3cs := by
  constructor
  · with_unfolding_all decide
  · with_unfolding_all decide

/-- C3 (amended): the operand order of every join condition is swapped
exactly when the left side's cardinality is strictly smaller than the
right side's; in every case the second (probe) child's cardinality is at
most the first child's. -/
theorem claim_C3 (C : Collab) (l r : List Nat) (cs : List (Expr × Expr))
    (lj rj : JoinNode) :
    ((csgCmpCandidate C l r lj rj cs).join_conditions =
      if lj.getCard C < rj.getCard C then cs.map (fun c => (c.2, c.1))
      else cs) ∧
    ((csgCmpCandidate C l r lj rj cs).children =
      if lj.getCard C < rj.getCard C then
        [(rj.getCardM C).2, (lj.getCardM C).2]
      else [(lj.getCardM C).2, (rj.getCardM C).2]) ∧
    (((csgCmpCandidate C l r lj rj cs).children.getD 1 jnDefault).getCard C
      ≤
      ((csgCmpCandidate C l r lj rj cs).children.getD 0 jnDefault).getCard
        C) := by
  refine ⟨csgCmpCandidate_conds_eq C l r lj rj cs,
    csgCmpCandidate_children_eq C l r lj rj cs, ?_⟩
  rw [csgCmpCandidate_children_eq]
  by_cases hlt : (lj.getCardM C).1 < (rj.getCardM C).1
  · rw [if_pos hlt]
    show ((lj.getCardM C).2).getCard C ≤ ((rj.getCardM C).2).getCard C
    rw [getCardM_getCard, getCardM_getCard]
    exact le_of_lt hlt
  · rw [if_neg hlt]
    show ((rj.getCardM C).2).getCard C ≤ ((lj.getCardM C).2).getCard C
    rw [getCardM_getCard, getCardM_getCard]
    exact not_lt.mp hlt

/-- Keys below `start` are untouched by the initialization loop. -/
theorem solveInitGo_lookup_lt (C : Collab) : ∀ (rels : List JoinRelation)
    (start : Nat) (dp : List (List Nat × JoinNode)) (j : Nat), j < start →
    alookup [j] (solveInitGo C rels start dp) = alookup [j] dp := by
  intro rels
  induction rels with
  | nil =>
    intro start dp j hj
    rfl
  | cons rel rest ih =>
    intro start dp j hj
    simp only [solveInitGo]
    rw [ih (start + 1) _ j (Nat.lt_succ_of_lt hj)]
    refine alookup_ainsert_ne _ _ _ _ ?_
    intro he
    simp only [relSetOfIndex, List.cons.injEq, and_true] at he
    exact absurd he (Nat.ne_of_lt hj)

/-- Every relation index receives a leaf entry (no children, singleton
leaf set, cost 0) from the initialization loop. -/
theorem solveInitGo_lookup (C : Collab) : ∀ (rels : List JoinRelation)
    (start : Nat) (dp : List (List Nat × JoinNode)) (i : Nat),
    i < rels.length →
    ∃ node, alookup [start + i] (solveInitGo C rels start dp) = some node ∧
      node.children = [] ∧ node.leaves = [start + i] ∧ node.cost = 0 := by
  intro rels
  induction rels with
  | nil =>
    intro start dp i hi
    simp at hi
  | cons rel rest ih =>
    intro start dp i hi
    cases i with
    | zero =>
      refine ⟨JoinNode.mk .inner [start] [] []
        0 (some (C.relCard rel.sexpr)) none, ?_, rfl, rfl, rfl⟩
      simp only [solveInitGo, Nat.add_zero]
      rw [solveInitGo_lookup_lt C rest (start + 1) _ start
        (Nat.lt_succ_self start)]
      exact alookup_ainsert_self _ _ _
    | succ i' =>
      have hi' : i' < rest.length := by
        simp only [List.length_cons] at hi
        omega
      simp only [solveInitGo]
      have h2 := ih (start + 1)
        (ainsert (relSetOfIndex start)
          (JoinNode.mk .inner (relSetOfIndex start) [] []
            0 (some (C.relCard rel.sexpr)) none) dp) i' hi'
      have harith : start + (i' + 1) = start + 1 + i' := by omega
      rw [harith]
      exact h2

/-- C9: the candidate join node built by `emit_csg_cmp` from disjoint
subsets with (leaf-correct) DP entries has exactly two children whose
leaf subsets are disjoint and union to the parent's leaf subset, and the
entries inserted at initialization are leaves: no children and a
singleton leaf subset (with cost 0). -/
theorem claim_C9 (C : Collab) (st : DState) (l r : List Nat)
    (cs : List (Expr × Expr)) (lj rj : JoinNode)
    (hl : alookup l st.dp_table = some lj)
    (hr : alookup r st.dp_table = some rj)
    (hlj : lj.leaves = l) (hrj : rj.leaves = r)
    (hdisj : l.toFinset ∩ r.toFinset = ∅)
    (st2 : DState) (i : Nat) (hi : i < st2.join_relations.length) :
    ((csgCmpCandidate C l r lj rj cs).children.length = 2 ∧
      ((csgCmpCandidate C l r lj rj cs).children.getD 0
          jnDefault).leaves.toFinset ∩
        ((csgCmpCandidate C l r lj rj cs).children.getD 1
          jnDefault).leaves.toFinset = ∅ ∧
      ((csgCmpCandidate C l r lj rj cs).children.getD 0
          jnDefault).leaves.toFinset ∪
        ((csgCmpCandidate C l r lj rj cs).children.getD 1
          jnDefault).leaves.toFinset =
        (csgCmpCandidate C l r lj rj cs).leaves.toFinset) ∧
    (∃ node, alookup [i] (solveInit C st2).dp_table = some node ∧
      node.children = [] ∧ node.leaves = [i] ∧ node.cost = 0) := by
  have _hl := hl
  have _hr := hr
  constructor
  · rw [csgCmpCandidate_children_eq, csgCmpCandidate_leaves_eq]
    by_cases hlt : (lj.getCardM C).1 < (rj.getCardM C).1
    · rw [if_pos hlt]
      refine ⟨rfl, ?_, ?_⟩
      · show ((rj.getCardM C).2).leaves.toFinset ∩
          ((lj.getCardM C).2).leaves.toFinset = ∅
        rw [getCardM_leaves, getCardM_leaves, hlj, hrj, Finset.inter_comm]
        exact hdisj
      · show ((rj.getCardM C).2).leaves.toFinset ∪
          ((lj.getCardM C).2).leaves.toFinset = (runion l r).toFinset
        rw [getCardM_leaves, getCardM_leaves, hlj, hrj, runion_toFinset,
          Finset.union_comm]
    · rw [if_neg hlt]
      refine ⟨rfl, ?_, ?_⟩
      · show ((lj.getCardM C).2).leaves.toFinset ∩
          ((rj.getCardM C).2).leaves.toFinset = ∅
        rw [getCardM_leaves, getCardM_leaves, hlj, hrj]
        exact hdisj
      · show ((lj.getCardM C).2).leaves.toFinset ∪
          ((rj.getCardM C).2).leaves.toFinset = (runion l r).toFinset
        rw [getCardM_leaves, getCardM_leaves, hlj, hrj, runion_toFinset]
  · unfold solveInit
    have h := solveInitGo_lookup C st2.join_relations 0 st2.dp_table i hi
    simpa using h

/-- Witness for C9: disjoint singleton subsets `[0]` and `[1]` with leaf
entries, and the initialization of a two-relation state at index 0. -/
theorem claim_C9_witness :
    ([0] : List Nat).toFinset ∩ ([1] : List Nat).toFinset = ∅ ∧
    (0 : Nat) < w9St.join_relations.length ∧
    ((csgCmpCandidate collab1 [0] [1] w9lj w9rj
        [(w9e1, w9e2)]).children.length = 2 ∧
      ((csgCmpCandidate collab1 [0] [1] w9lj w9rj
          [(w9e1, w9e2)]).children.getD 0 jnDefault).leaves.toFinset ∩
        ((csgCmpCandidate collab1 [0] [1] w9lj w9rj
          [(w9e1, w9e2)]).children.getD 1 jnDefault).leaves.toFinset = ∅ ∧
      ((csgCmpCandidate collab1 [0] [1] w9lj w9rj
          [(w9e1, w9e2)]).children.getD 0 jnDefault).leaves.toFinset ∪
        ((csgCmpCandidate collab1 [0] [1] w9lj w9rj
          [(w9e1, w9e2)]).children.getD 1 jnDefault).leaves.toFinset =
        (csgCmpCandidate collab1 [0] [1] w9lj w9rj
          [(w9e1, w9e2)]).leaves.toFinset) ∧
    (∃ node, alookup [0] (solveInit collab1 w9St).dp_table = some node ∧
      node.children = [] ∧ node.leaves = [0] ∧ node.cost = 0) := by
  refine ⟨by decide, by decide, ?_⟩
  exact claim_C9 collab1 w9St [0] [1] [(w9e1, w9e2)] w9lj w9rj rfl rfl
    rfl rfl (by decide) w9St 0 (by decide)

/-- C8: `replace_join_expr` is exactly the specification's
reconstruction: the winning join tree replaces the first join node found
in a top-down scan, a single filter holding the union of the residual
predicates of the filter set is placed directly above it, the pushdown
rule is applied repeatedly, and an emptied top filter is removed. -/
theorem claim_C8 (C : Collab) (filters : List Filter) : ∀ (fuel : Nat)
    (je s : SExpr),
    replace_join_expr C filters fuel je s =
      specReconstruct C filters fuel je s := by
  intro fuel
  induction fuel with
  | zero =>
    intro je s
    rfl
  | succ n ih =>
    intro je s
    simp only [replace_join_expr, specReconstruct]
    split
    · split
      · rfl
      · simp only [dropEmptyTopFilter]
    · split
      · rfl
      · rw [ih]

/-- The edge-building loop of `optimize` never touches the DP table. -/
theorem buildGraphLoop_dp : ∀ (conds : List (Expr × Expr)) (st : DState)
    (res : Bool × DState), buildGraphLoop conds st = .ok res →
    res.2.dp_table = st.dp_table := by
  intro conds
  induction conds with
  | nil =>
    intro st res h
    injection h with h'
    subst h'
    rfl
  | cons hd rest ih =>
    intro st res h
    obtain ⟨lc, rc⟩ := hd
    simp only [buildGraphLoop] at h
    split at h
    · exact Except.noConfusion h
    · split at h
      · exact Except.noConfusion h
      · split at h
        · rw [ih _ _ h]
          split <;> rfl
        · injection h with h'
          subst h'
          rfl

/-- If some collected condition has a side that resolves to no relations,
the edge-building loop reports `false` (when it does not error). -/
theorem buildGraphLoop_bad : ∀ (conds : List (Expr × Expr)) (st : DState)
    (res : Bool × DState), buildGraphLoop conds st = .ok res →
    (∃ c ∈ conds, c.1.tables = [] ∨ c.2.tables = []) → res.1 = false := by
  intro conds
  induction conds with
  | nil =>
    intro st res h hbad
    obtain ⟨c, hc, _⟩ := hbad
    exact absurd hc (List.not_mem_nil c)
  | cons hd rest ih =>
    intro st res h hbad
    obtain ⟨lc, rc⟩ := hd
    simp only [buildGraphLoop] at h
    split at h
    · exact Except.noConfusion h
    · rename_i lraw hl
      split at h
      · exact Except.noConfusion h
      · rename_i rraw hr
        split at h
        · rename_i hne
          obtain ⟨c, hc, hcbad⟩ := hbad
          rcases List.mem_cons.mp hc with hceq | hcrest
          · exfalso
            subst hceq
            cases hcbad with
            | inl h0 =>
              rw [h0] at hl
              injection hl with hl'
              subst hl'
              simp at hne
            | inr h0 =>
              rw [h0] at hr
              injection hr with hr'
              subst hr'
              simp at hne
          · exact ih _ _ h ⟨c, hcrest, hcbad⟩
        · injection h with h'
          subst h'
          rfl

/-- Counterexample for C4: on an inner join of two blocking (aggregate)
children, the join condition (with a table-less left side) is collected,
the whole join collapses to a single relation, and `optimize` returns
`true` — not `false` as claimed. -/
theorem claim_C4_counterexample :
    extractFlagCondsOut (get_base_relations collab1 30 x4P [] false none
      false DState.empty) = some (true, [(x4eL, x4eR)]) ∧
    x4eL.tables = [] ∧
    optOut (optimize collab1 31 x4P DState.empty) = some (x4P, true) := by
  refine ⟨?_, rfl, ?_⟩ <;> with_unfolding_all rfl

/-- C4 (amended): if extraction succeeds with a condition one of whose
sides references no tables, and more than one relation (or none) was
extracted, then `optimize` returns the extraction plan with success flag
`false` before `solve` runs, leaving the DP table untouched.  (With
exactly one extracted relation, `optimize` instead returns `true` early
without inspecting the conditions — see the counterexample.) -/
theorem claim_C4 (C : Collab) (fuel : Nat) (s : SExpr) (st0 : DState)
    (e : SExpr) (conds : List (Expr × Expr)) (st1 : DState)
    (res : (SExpr × Bool) × DState)
    (hext : get_base_relations C fuel s [] false none false st0 =
      .ok ((e, true), conds, st1))
    (hbad : ∃ c ∈ conds, c.1.tables = [] ∨ c.2.tables = [])
    (hlen : st1.join_relations.length ≠ 1)
    (hopt : optimize C (fuel + 1) s st0 = .ok res) :
    res.1.2 = false ∧ res.1.1 = e ∧ res.2.dp_table = st1.dp_table := by
  simp only [optimize] at hopt
  rw [hext] at hopt
  have hc1 : decide (st1.join_relations.length = 1) = false :=
    decide_eq_false hlen
  have hc2 : conds.isEmpty = false := by
    cases conds with
    | nil =>
      obtain ⟨c, hc, _⟩ := hbad
      exact absurd hc (List.not_mem_nil c)
    | cons _ _ => rfl
  simp only [Bool.not_true, Bool.false_eq_true, if_false, hc1, hc2,
    Bool.or_self] at hopt
  split at hopt
  · exact Except.noConfusion hopt
  · rename_i flag st2 hbg
    have hflag : flag = false := buildGraphLoop_bad conds st1 (flag, st2)
      hbg hbad
    subst hflag
    simp only [Bool.not_false, if_true] at hopt
    injection hopt with h'
    subst h'
    exact ⟨rfl, rfl, buildGraphLoop_dp conds st1 (false, st2) hbg⟩

/-- Witness for C4 (amended): two scans joined by a condition whose left
side references no tables — `optimize` fails before `solve`. -/
theorem claim_C4_witness :
    (get_base_relations collab1 30 w4P [] false none false DState.empty =
      .ok ((w4Ext.1.1, true), w4Ext.2.1, w4Ext.2.2)) ∧
    w4Res.1.2 = false ∧ w4Res.1.1 = w4Ext.1.1 ∧
    w4Res.2.dp_table = w4Ext.2.2.dp_table := by
  refine ⟨by with_unfolding_all rfl, ?_⟩
  exact claim_C4 collab1 30 w4P DState.empty w4Ext.1.1 w4Ext.2.1
    w4Ext.2.2 w4Res (by with_unfolding_all rfl)
    ⟨(w4eBad, w4eB), by with_unfolding_all decide, Or.inl rfl⟩
    (by with_unfolding_all decide) (by with_unfolding_all rfl)

/-- Counterexample for C5: a bare cross product of two relations with no
join predicate — `optimize` returns `true` (with the plan unchanged), not
`false` as claimed. -/
theorem claim_C5_counterexample :
    extractFlagCondsOut (get_base_relations collab1 20 x5P [] false none
      false DState.empty) = some (true, []) ∧
    relCountOut (get_base_relations collab1 20 x5P [] false none false
      DState.empty) = some 2 ∧
    optOut (optimize collab1 21 x5P DState.empty) = some (x5P, true) := by
  refine ⟨?_, ?_, ?_⟩ <;> with_unfolding_all rfl

/-- C5 (amended): when extraction succeeds and collects no join
conditions (in particular for a bare cross product of two relations),
`optimize` returns success flag `true` with the extraction plan,
skipping the DP phase entirely. -/
theorem claim_C5 (C : Collab) (fuel : Nat) (s : SExpr) (st0 : DState)
    (e : SExpr) (st1 : DState)
    (hext : get_base_relations C fuel s [] false none false st0 =
      .ok ((e, true), [], st1)) :
    optimize C (fuel + 1) s st0 = .ok ((e, true), st1) := by
  simp only [optimize]
  rw [hext]
  simp only [Bool.not_true, Bool.false_eq_true, if_false,
    List.isEmpty_nil, Bool.or_true, if_true]

/-- Witness for C5 (amended): a concrete bare cross product — `optimize`
returns `true` with the plan unchanged. -/
theorem claim_C5_witness :
    (get_base_relations collab1 20 w5P [] false none false DState.empty =
      .ok ((w5Ext.1.1, true), [], w5Ext.2.2)) ∧
    optimize collab1 21 w5P DState.empty = .ok ((w5Ext.1.1, true),
      w5Ext.2.2) := by
  refine ⟨by with_unfolding_all rfl, ?_⟩
  exact claim_C5 collab1 20 w5P DState.empty w5Ext.1.1 w5Ext.2.2
    (by with_unfolding_all rfl)

/-- Counterexample for C6: `optimize` fails (returns `false`) on `x6P`,
but the plan it returns is not the input plan — the inner join below the
non-inner join was reordered by the recursive subquery optimization. -/
theorem claim_C6_counterexample :
    optOut (optimize collab1 40 x6P DState.empty) = some (x6R, false) ∧
    x6R ≠ x6P := by
  refine ⟨by with_unfolding_all rfl, ?_⟩
  intro h
  have h2 := congrArg probeChild2Plan h
  rw [show probeChild2Plan x6R =
      some (.join ⟨.inner, [x6eB], [x6eA], []⟩) from rfl,
    show probeChild2Plan x6P =
      some (.join ⟨.inner, [x6eA], [x6eB], []⟩) from rfl] at h2
  exact absurd h2 (by decide)

/-- C6 (amended): whenever `optimize` returns success flag `false`, the
plan it returns is exactly the output of the extraction phase — which may
differ from the input plan when subquery children were recursively
optimized; the DP reordering result is never returned with `false`. -/
theorem claim_C6 (C : Collab) (fuel : Nat) (s : SExpr) (st0 : DState)
    (e : SExpr) (st' : DState)
    (hopt : optimize C (fuel + 1) s st0 = .ok ((e, false), st')) :
    ∃ b conds st1, get_base_relations C fuel s [] false none false st0 =
      .ok ((e, b), conds, st1) := by
  simp only [optimize] at hopt
  split at hopt
  · exact Except.noConfusion hopt
  · rename_i e0 opt conds st1 heq
    split at hopt
    · injection hopt with h'
      injection h' with ha hb
      injection ha with he hf
      subst he
      exact ⟨opt, conds, st1, heq⟩
    · split at hopt
      · injection hopt with h'
        injection h' with ha hb
        injection ha with he hf
        exact absurd hf (by simp)
      · split at hopt
        · exact Except.noConfusion hopt
        · rename_i flag st2 hbg
          split at hopt
          · injection hopt with h'
            injection h' with ha hb
            injection ha with he hf
            subst he
            exact ⟨opt, conds, st1, heq⟩
          · split at hopt
            · exact Except.noConfusion hopt
            · rename_i solved st3 hsv
              split at hopt
              · split at hopt
                · rename_i fp hfp
                  unfold join_reorder at hopt
                  split at hopt
                  · exact Except.noConfusion hopt
                  · split at hopt
                    · exact Except.noConfusion hopt
                    · injection hopt with h'
                      injection h' with ha hb
                      injection ha with he hf
                      exact absurd hf (by simp)
                · injection hopt with h'
                  injection h' with ha hb
                  injection ha with he hf
                  subst he
                  exact ⟨opt, conds, st1, heq⟩
              · injection hopt with h'
                injection h' with ha hb
                injection ha with he hf
                subst he
                exact ⟨opt, conds, st1, heq⟩

/-- Witness for C6 (amended): a concrete failing run whose returned plan
is the extraction output. -/
theorem claim_C6_witness :
    (optimize collab1 21 w6P DState.empty = .ok ((w6Res.1.1, false),
      w6Res.2)) ∧
    (∃ b conds st1, get_base_relations collab1 20 w6P [] false none false
      DState.empty = .ok ((w6Res.1.1, b), conds, st1)) := by
  refine ⟨by with_unfolding_all rfl, ?_⟩
  exact claim_C6 collab1 20 w6P DState.empty w6Res.1.1 w6Res.2
    (by with_unfolding_all rfl)

/-- Witness for C10: a concrete `emit_csg_cmp` call and a concrete
`solve` run, both returning `true`. -/
theorem claim_C10_witness :
    (emit_csg_cmp collab0 w10St [0] [1] [(w10e1, w10e2)] = .ok w10Res) ∧
    (solve collab0 1 DState.empty = .ok w10Res2) ∧
    w10Res.1 = true ∧ w10Res2.1 = true := by
  refine ⟨by with_unfolding_all rfl, by with_unfolding_all rfl, ?_⟩
  exact claim_C10 collab0 w10St [0] [1] [(w10e1, w10e2)] w10Res 1
    DState.empty w10Res2 (by with_unfolding_all rfl)
    (by with_unfolding_all rfl)

end Dphyp
